import Mathlib

/-!
Verification development for the spreadsheet reconciliation program
(`PythonProject1/Фо быстрое.py`).  The pure core of the program —
text normalization, header classification, table normalization, the
aggregator and the composite-key matcher — is shallowly embedded here.
Cells are text, rationals (for the numeric values the program handles
as floats) or missing; tables are a header list plus rows of
header/cell associations, mirroring a rectangular pandas DataFrame.
-/

namespace FoRep

/-! ### Character and string primitives

Models of the Python string operations the program uses:
`str.lower` (restricted to the Latin and Cyrillic alphabets the
program's keyword tables use), `str.strip`, `re.sub(r'\s+', ' ', ·)`
and the `[^\w\s]` character-class filter. -/

/-- Model of Python `str.lower` on a character, covering ASCII `A`–`Z`
and Cyrillic `А`–`Я`/`Ё`, the alphabets appearing in the program. -/
def pyLowerChar (c : Char) : Char :=
  if 0x41 ≤ c.toNat ∧ c.toNat ≤ 0x5a then Char.ofNat (c.toNat + 32)
  else if 0x410 ≤ c.toNat ∧ c.toNat ≤ 0x42f then Char.ofNat (c.toNat + 32)
  else if c.toNat = 0x401 then Char.ofNat 0x451
  else c

/-- Model of Python `str.lower`. -/
def pyLower (s : String) : String := ⟨s.data.map pyLowerChar⟩

/-- Python whitespace characters (the ASCII ones recognised by
`str.strip` and `\s`). -/
def isPyWs (c : Char) : Bool :=
  c.toNat = 0x20 || c.toNat = 0x9 || c.toNat = 0xa ||
  c.toNat = 0xd || c.toNat = 0xb || c.toNat = 0xc

/-- Model of Python `str.strip` on a character list. -/
def pyStrip (l : List Char) : List Char :=
  ((l.dropWhile isPyWs).reverse.dropWhile isPyWs).reverse

/-- Model of Python `str.strip`. -/
def pyStripStr (s : String) : String := ⟨pyStrip s.data⟩

/-- Replace each maximal run of whitespace by a single space; the flag
records whether the previous character was part of a whitespace run.
Models `re.sub(r'\s+', ' ', ·)`. -/
def collapseWsAux : List Char → Bool → List Char
  | [], _ => []
  | c :: t, inRun =>
      if isPyWs c then
        if inRun then collapseWsAux t true else ' ' :: collapseWsAux t true
      else c :: collapseWsAux t false

/-- Model of `re.sub(r'\s+', ' ', ·)`. -/
def collapseWs (l : List Char) : List Char := collapseWsAux l false

/-- Model of the Python regex class `\w` restricted to the alphabets
the program handles: ASCII digits, ASCII letters, underscore and
Cyrillic letters. -/
def isWordChar (c : Char) : Bool :=
  (0x30 ≤ c.toNat && c.toNat ≤ 0x39) ||
  (0x41 ≤ c.toNat && c.toNat ≤ 0x5a) ||
  (0x61 ≤ c.toNat && c.toNat ≤ 0x7a) ||
  c.toNat = 0x5f ||
  (0x410 ≤ c.toNat && c.toNat ≤ 0x44f) ||
  c.toNat = 0x401 || c.toNat = 0x451

/-- Substring test on character lists, modelling Python's `in` on
strings. -/
def containsSub : List Char → List Char → Bool
  | [], needle => needle.isEmpty
  | c :: t, needle => needle.isPrefixOf (c :: t) || containsSub t needle

/-- Substring test on strings (`needle in hay` in Python). -/
def strContains (hay needle : String) : Bool := containsSub hay.data needle.data

/-- Embedding of `DataProcessor.normalize_text` restricted to string
input (lowercase, strip, collapse whitespace runs, drop characters
outside `\w` and `\s`). -/
def normalizeCore (s : String) : String :=
  ⟨(collapseWs (pyStrip (pyLower s).data)).filter (fun c => isWordChar c || isPyWs c)⟩

/-! ### Cells, rows, tables -/

/-- A spreadsheet cell: text, a number (the program's floats are
modelled as rationals) or missing (`NaN`). -/
inductive Cell where
  | str : String → Cell
  | num : ℚ → Cell
  | na  : Cell
deriving DecidableEq

/-- Embedding of `DataProcessor.normalize_text`: non-string input
yields the empty string (`if not isinstance(text, str): return ""`). -/
def normalize_text : Cell → String
  | .str s => normalizeCore s
  | _ => ""

/-- Value of a cell under `fillna('').astype(str)`: missing cells
become the empty string, numbers their decimal rendering. -/
def cellToStr : Cell → String
  | .str s => s
  | .num q => toString q
  | .na => ""

/-- Value of a cell under a bare `astype(str)` (no `fillna`): pandas
renders missing values as the string `"nan"`. -/
def astypeStr : Cell → String
  | .str s => s
  | .num q => toString q
  | .na => "nan"

/-- Parse a decimal literal (optional sign, digits, optional fraction),
the shape of number `pd.to_numeric` accepts from the program's data;
anything else is a coercion failure. -/
def parseDigits (ds : List Char) : Option Nat :=
  if ds.isEmpty then none
  else if ds.all Char.isDigit then
    some (ds.foldl (fun a c => a * 10 + (c.toNat - 48)) 0)
  else none

/-- Parse a (possibly signed, possibly fractional) decimal string. -/
def parseNum (s : String) : Option ℚ :=
  let l := pyStrip s.data
  let (sign, body) : ℚ × List Char :=
    match l with
    | '-' :: t => (-1, t)
    | '+' :: t => (1, t)
    | _ => (1, l)
  match body.splitOn '.' with
  | [a] => (parseDigits a).map (fun n => sign * n)
  | [a, b] =>
      if a.isEmpty && b.isEmpty then none
      else
        let ip : ℚ := ((parseDigits a).getD 0 : ℕ)
        match b with
        | [] => if a.isEmpty then none else (parseDigits a).map (fun n => sign * n)
        | _ =>
            (parseDigits b).map (fun f =>
              sign * (ip + (f : ℚ) / ((10 : ℚ) ^ b.length)))
  | _ => none

/-- Numeric value of a cell under
`pd.to_numeric(·, errors='coerce').fillna(0)`: numbers pass through,
missing and unparsable values become `0`. -/
def cellToNum : Cell → ℚ
  | .num q => q
  | .na => 0
  | .str s => (parseNum s).getD 0

/-- A row: an ordered association of column names to cells, mirroring
one line of a rectangular DataFrame. -/
abbrev Row := List (String × Cell)

/-- Cell of a row at a column name (first occurrence; missing columns
read as `NaN`). -/
def Row.get : Row → String → Cell
  | [], _ => Cell.na
  | p :: r, n => if p.1 = n then p.2 else Row.get r n

/-- Overwrite (first occurrence of) a column in a row, appending the
column when absent — the effect of a pandas column assignment on one
row. -/
def Row.setCell : Row → String → Cell → Row
  | [], n, v => [(n, v)]
  | p :: r, n, v => if p.1 = n then (n, v) :: r else p :: Row.setCell r n v

/-- Guarded column rewrite over a row: for each listed column whose
guard holds, rewrite the column's cell through `f` (reading the cell
the row holds at that point). -/
def rowGuardFold (g : String → Bool) (f : Cell → Cell) (cols : List String) (r : Row) : Row :=
  cols.foldl (fun r' c => if g c then r'.setCell c (f (r'.get c)) else r') r

/-- A table: a header list plus rows. -/
structure Table where
  headers : List String
  rows : List Row
deriving DecidableEq

/-- Column-wise transformation `df[c] = f(df[c])` (applied when the
program has checked the column exists). -/
def Table.transformCol (t : Table) (n : String) (f : Cell → Cell) : Table :=
  { headers := t.headers, rows := t.rows.map (fun r => r.setCell n (f (r.get n))) }

/-- Column assignment `df[c] = v` with a constant value. -/
def Table.setColConst (t : Table) (n : String) (v : Cell) : Table :=
  { headers := if t.headers.contains n then t.headers else t.headers ++ [n],
    rows := t.rows.map (fun r => r.setCell n v) }

/-- Rename a header according to a raw-header → canonical-field
mapping, leaving unmapped headers unchanged. -/
def renameOne (m : List (String × String)) (h : String) : String :=
  match m.find? (fun p => p.1 = h) with
  | some p => p.2
  | none => h

/-- `df.rename(columns=mapping)`. -/
def Table.renameCols (t : Table) (m : List (String × String)) : Table :=
  { headers := t.headers.map (renameOne m),
    rows := t.rows.map (fun r => r.map (fun p => (renameOne m p.1, p.2))) }

/-- `df = df[cols]`: keep the listed columns, in the listed order. -/
def Table.selectCols (t : Table) (ns : List String) : Table :=
  { headers := ns, rows := t.rows.map (fun r => ns.map (fun n => (n, r.get n))) }

/-! ### Header classification

`load_id_data` and `load_structure_data` both walk the column list
once; per column the guarded keyword rules are tried in a fixed order,
and a rule fires only when its target field has not been assigned yet
(`target not in column_mapping.values()`). -/

/-- One classification rule: a keyword condition on the lowercased
header, and the canonical field it assigns. -/
structure Rule where
  cond : String → Bool
  target : String

/-- Try the rules on one column in order; the first rule whose target
is still unassigned and whose condition holds appends
`(column, target)` to the mapping, mirroring
`column_mapping[col] = target` under the `not in values()` guard. -/
def tryRules : List Rule → List (String × String) → String → List (String × String)
  | [], m, _ => m
  | r :: rs, m, col =>
      if !(m.map Prod.snd).contains r.target && r.cond (pyLower col) then
        m ++ [(col, r.target)]
      else tryRules rs m col

/-- Classify a header list: fold the per-column rule application over
the columns in original order, starting from an empty mapping. -/
def classifyCols (rules : List Rule) (cols : List String) : List (String × String) :=
  cols.foldl (tryRules rules) []

/-- Documentation-schema rules of `load_id_data`, in source order:
`Объем_по_документу` (most specific), `Шифр_комплекта`,
`Конструктивный_элемент`, `Вид_работ` (most general, last). -/
def idRules : List Rule :=
  [ ⟨fun n => (strContains n "объём по документу" && strContains n "work scopes") ||
              (strContains n "объем по документу" && strContains n "work scopes"),
     "Объем_по_документу"⟩,
    ⟨fun n => (strContains n "шифры комплектов рд" && strContains n "detailed design documents sections") ||
              (strContains n "шифры комплектов" && strContains n "detailed design") ||
              strContains n "шифры комплектов рд" ||
              strContains n "detailed design documents sections" ||
              (strContains n "шифр" && strContains n "комплект" && strContains n "рд"),
     "Шифр_комплекта"⟩,
    ⟨fun n => strContains n "конструктив" || strContains n "construction" ||
              strContains n "элемент" || strContains n "element" ||
              strContains n "конструкц" || strContains n "конструкции",
     "Конструктивный_элемент"⟩,
    ⟨fun n => strContains n "вид работ" || strContains n "works" ||
              strContains n "work" || strContains n "type of work" ||
              strContains n "вид_работ" ||
              (strContains n "type of" && strContains n "work"),
     "Вид_работ"⟩ ]

/-- Structure-schema rules of `load_structure_data`, in the source's
`if`/`elif` order. -/
def structureRules : List Rule :=
  [ ⟨fun n => strContains n "проект", "Проект"⟩,
    ⟨fun n => strContains n "марка" || strContains n "шифр", "Марка"⟩,
    ⟨fun n => strContains n "конструкция", "Конструкция"⟩,
    ⟨fun n => strContains n "вид работ", "Вид_работ_по_классификатору"⟩,
    ⟨fun n => strContains n "ед. изм", "Ед_изм"⟩,
    ⟨fun n => strContains n "проектный объем", "Проектный_объем"⟩,
    ⟨fun n => strContains n "выполнено в натуре", "Выполнено_в_натуре"⟩,
    ⟨fun n => strContains n "принято по rfi", "Принято_по_RFI"⟩ ]

/-! ### clean_dataframe_columns

Header cleanup: headers are stripped, and duplicate header names are
replaced by `name_dupN` suffixes, keeping the first occurrence.  Row
entries are re-labelled positionally, as pandas relabels columns. -/

/-- Find `h_dupN` with the smallest `N ≥ k` not yet seen (fuel-bounded;
the fuel passed always suffices because among `seen.length + 1`
distinct candidates at least one is unseen). -/
def freshDup (h : String) : Nat → Nat → List String → String
  | 0, k, _ => h ++ "_dup" ++ toString k
  | fuel + 1, k, seen =>
      let cand := h ++ "_dup" ++ toString k
      if seen.contains cand then freshDup h fuel (k + 1) seen else cand

/-- Deduplicate a header list, suffixing later duplicates. -/
def dedupHeaders : List String → List String → List String
  | [], _ => []
  | h :: t, seen =>
      if seen.contains h then
        let h2 := freshDup h (seen.length + 1) 1 seen
        h2 :: dedupHeaders t (seen ++ [h2])
      else h :: dedupHeaders t (seen ++ [h])

/-- Embedding of `DataProcessor.clean_dataframe_columns`: strip the
header strings, deduplicate them, and re-label the row entries with the
new headers positionally. -/
def clean_dataframe_columns (t : Table) : Table :=
  let hs := dedupHeaders (t.headers.map pyStripStr) []
  { headers := hs,
    rows := t.rows.map (fun r => (hs.zip r).map (fun hp => (hp.1, hp.2.2))) }

/-! ### The loaders -/

/-- Canonical fields the documentation load targets. -/
def idNeededCols : List String :=
  ["Шифр_комплекта", "Конструктивный_элемент", "Вид_работ", "Объем_по_документу"]

/-- Text fields of the documentation schema. -/
def idTextCols : List String :=
  ["Шифр_комплекта", "Конструктивный_элемент", "Вид_работ"]

/-- Text cleanup `fillna('').astype(str).str.strip()`. -/
def cleanTextCell (c : Cell) : Cell := Cell.str (pyStripStr (cellToStr c))

/-- Numeric cleanup `pd.to_numeric(·, errors='coerce').fillna(0)`. -/
def toNumCell (c : Cell) : Cell := Cell.num (cellToNum c)

/-- Headers of a documentation table after classification, renaming
and the second header cleanup; the loader's sufficiency check reads
these. -/
def idMappedHeaders (df : Table) : List String :=
  let df1 := clean_dataframe_columns df
  let mapping := classifyCols idRules df1.headers
  (clean_dataframe_columns (df1.renameCols mapping)).headers

/-- The documentation loader's mandatory-field failure condition: of
the four target fields present after mapping, `Шифр_комплекта` or
`Объем_по_документу` is missing, or fewer than two are present. -/
def idInsufficient (df : Table) : Bool :=
  let available := idNeededCols.filter (fun c => (idMappedHeaders df).contains c)
  !available.contains "Шифр_комплекта" || !available.contains "Объем_по_документу" ||
    available.length < 2

/-- The documentation loader's sample-logging failure condition: after
selection, value cleanup and the empty-key row filter, at least one
data row survives while `Конструктивный_элемент` or `Вид_работ` was
not assigned — the sample-logging block then reads those columns of
the first surviving rows unconditionally, raising `KeyError`, which
the loader's handler answers with `None`. -/
def idSampleLogFails (df : Table) : Bool :=
  let df1 := clean_dataframe_columns df
  let mapping := classifyCols idRules df1.headers
  let df2 := clean_dataframe_columns (df1.renameCols mapping)
  let available := idNeededCols.filter (fun c => df2.headers.contains c)
  let df3 := df2.selectCols available
  let df4 := available.foldl (fun s c =>
    if idTextCols.contains c then s.transformCol c cleanTextCell
    else if c = "Объем_по_документу" then s.transformCol c toNumCell
    else s) df3
  let keyCols := idTextCols.filter (fun c => df4.headers.contains c)
  let df5 : Table := { df4 with
    rows := df4.rows.filter (fun r =>
      keyCols.all (fun c => pyStripStr (cellToStr (r.get c)) ≠ "")) }
  !df5.rows.isEmpty && (!df5.headers.contains "Конструктивный_элемент" ||
    !df5.headers.contains "Вид_работ")

/-- Embedding of `DataProcessor.load_id_data` from the point where the
worksheet has been read into a raw table (file selection, sheet choice
and header-row detection are external collaborators).  Returns `none`
for an empty table or when the mandatory-field check fails; otherwise
classifies, renames, keeps the mapped columns, coerces text and
numeric values, and drops rows whose present key fields are empty
after stripping.  One more `none` path remains: the sample-logging
block then reads `Конструктивный_элемент` and `Вид_работ` of the first
surviving rows, so when at least one row survives the filter while one
of those two fields was not assigned, the read raises `KeyError` and
the surrounding handler returns `None` — the final guard models that
path. -/
def load_id_data (df : Table) : Option Table :=
  if df.rows.isEmpty then none
  else
    let df1 := clean_dataframe_columns df
    let mapping := classifyCols idRules df1.headers
    let df2 := clean_dataframe_columns (df1.renameCols mapping)
    let available := idNeededCols.filter (fun c => df2.headers.contains c)
    if !available.contains "Шифр_комплекта" || !available.contains "Объем_по_документу" ||
        available.length < 2 then none
    else
      let df3 := df2.selectCols available
      let df4 := available.foldl (fun s c =>
        if idTextCols.contains c then s.transformCol c cleanTextCell
        else if c = "Объем_по_документу" then s.transformCol c toNumCell
        else s) df3
      let keyCols := idTextCols.filter (fun c => df4.headers.contains c)
      let df5 : Table := { df4 with
        rows := df4.rows.filter (fun r =>
          keyCols.all (fun c => pyStripStr (cellToStr (r.get c)) ≠ "")) }
      if !df5.rows.isEmpty && (!df5.headers.contains "Конструктивный_элемент" ||
          !df5.headers.contains "Вид_работ") then none
      else some df5

/-- The five identifying fields of the structure schema. -/
def structureRequiredCols : List String :=
  ["Проект", "Марка", "Конструкция", "Вид_работ_по_классификатору", "Ед_изм"]

/-- The three summed volume fields of the structure schema. -/
def structureNumericCols : List String :=
  ["Проектный_объем", "Выполнено_в_натуре", "Принято_по_RFI"]

/-- Headers of a structure table after classification and renaming
(no second header cleanup in this loader). -/
def structureMappedHeaders (df : Table) : List String :=
  let df1 := clean_dataframe_columns df
  (df1.renameCols (classifyCols structureRules df1.headers)).headers

/-- The structure loader's mandatory-field failure condition: fewer
than three of the five identifying fields present after mapping. -/
def structureInsufficient (df : Table) : Bool :=
  (structureRequiredCols.filter (fun c => (structureMappedHeaders df).contains c)).length < 3

/-- The structure loader's duplicated-label failure condition: the
rename (with no second header cleanup in this loader) gave two columns
the same canonical label — necessarily one of the text or numeric
field names the cleanup loop touches — so the loop's `.str` /
`to_numeric` on the duplicated-label selection raises, and the
loader's handler answers with `None`. -/
def structureDupLabel (df : Table) : Bool :=
  let df1 := clean_dataframe_columns df
  let df2 := df1.renameCols (classifyCols structureRules df1.headers)
  df2.headers.any (fun c =>
    (structureRequiredCols.contains c || structureNumericCols.contains c) &&
    decide (1 < df2.headers.count c))

/-- Embedding of `DataProcessor.load_structure_data` from the point
where the worksheet has been read into a raw table.  Returns `none`
for an empty table or when fewer than three of the five identifying
fields are present after mapping; otherwise coerces text and numeric
columns.  No rows are dropped by this loader.  One more `none` path
remains: this loader does not clean headers again after the rename, so
renaming can give two columns the same canonical label (a mapped
header colliding with a raw header that already bore the target name);
the cleanup loop's `.str` / `to_numeric` on such a duplicated-label
selection raises, and the surrounding handler returns `None` — the
second guard models that path (every rename-created duplicate is one
of the eight canonical names the loop touches). -/
def load_structure_data (df : Table) : Option Table :=
  if df.rows.isEmpty then none
  else
    let df1 := clean_dataframe_columns df
    let df2 := df1.renameCols (classifyCols structureRules df1.headers)
    if (structureRequiredCols.filter (fun c => df2.headers.contains c)).length < 3 then none
    else if df2.headers.any (fun c =>
        (structureRequiredCols.contains c || structureNumericCols.contains c) &&
        decide (1 < df2.headers.count c)) then none
    else
      some (df2.headers.foldl (fun s c =>
        if structureRequiredCols.contains c then s.transformCol c cleanTextCell
        else if structureNumericCols.contains c then s.transformCol c toNumCell
        else s) df2)

/-! ### The aggregator (`create_pivot_table`) -/

/-- Row-level form of the aggregator's missing-numeric-column
insertion (`for col in numeric_cols: if col not in df.columns:
df[col] = 0`): numeric columns absent from the headers are set to the
constant `0`. -/
def rowNumFill (hs : List String) (r : Row) : Row :=
  rowGuardFold (fun c => !hs.contains c) (fun _ => Cell.num 0) structureNumericCols r

/-- The grouping key of a (cleaned) structure row: the cell strings of
the five identifying columns. -/
def key5 (r : Row) : String × String × String × String × String :=
  (cellToStr (r.get "Проект"), cellToStr (r.get "Марка"),
   cellToStr (r.get "Конструкция"), cellToStr (r.get "Вид_работ_по_классификатору"),
   cellToStr (r.get "Ед_изм"))

/-- The grouping key a raw structure row receives after the
aggregator's own `astype(str).str.strip()` cleanup of the five key
columns. -/
def cleanKey5 (r : Row) : String × String × String × String × String :=
  (pyStripStr (astypeStr (r.get "Проект")), pyStripStr (astypeStr (r.get "Марка")),
   pyStripStr (astypeStr (r.get "Конструкция")),
   pyStripStr (astypeStr (r.get "Вид_работ_по_классификатору")),
   pyStripStr (astypeStr (r.get "Ед_изм")))

/-- Sum of a numeric column over a row group (`agg 'sum'`). -/
def sumCol (rs : List Row) (c : String) : ℚ :=
  (rs.map (fun r => cellToNum (r.get c))).sum

/-- Build one aggregated output row from a grouping key and the three
sums, with `Подтверждено_ИД` initialised to `0`. -/
def mkPivotRow (k : String × String × String × String × String)
    (a b c : ℚ) : Row :=
  [("Проект", Cell.str k.1), ("Марка", Cell.str k.2.1),
   ("Конструкция", Cell.str k.2.2.1),
   ("Вид_работ_по_классификатору", Cell.str k.2.2.2.1),
   ("Ед_изм", Cell.str k.2.2.2.2),
   ("Проектный_объем", Cell.num a), ("Выполнено_в_натуре", Cell.num b),
   ("Принято_по_RFI", Cell.num c), ("Подтверждено_ИД", Cell.num 0)]

/-- Embedding of `DataProcessor.create_pivot_table`: fail when an
identifying column is missing; insert any missing numeric column as
`0` (the three numeric names are pairwise distinct, so inserting one
cannot satisfy the presence test of another — the membership tests are
therefore taken against the input headers); strip the five key
columns; group by them, summing the three numeric columns; initialise
`Подтверждено_ИД = 0`. -/
def create_pivot_table (t : Table) : Option Table :=
  if structureRequiredCols.any (fun c => !t.headers.contains c) then none
  else
    let t1 : Table :=
      { headers := t.headers ++ structureNumericCols.filter (fun c => !t.headers.contains c),
        rows := t.rows.map (rowNumFill t.headers) }
    let t2 := structureRequiredCols.foldl (fun s c =>
      if s.headers.contains c then
        s.transformCol c (fun x => Cell.str (pyStripStr (astypeStr x)))
      else s) t1
    let keys := (t2.rows.map key5).dedup
    some { headers := structureRequiredCols ++ structureNumericCols ++ ["Подтверждено_ИД"],
           rows := keys.map (fun k =>
             let grp := t2.rows.filter (fun r => decide (key5 r = k))
             mkPivotRow k (sumCol grp "Проектный_объем") (sumCol grp "Выполнено_в_натуре")
               (sumCol grp "Принято_по_RFI")) }

/-! ### The composite-key matcher (`optimize_matching`) -/

/-- The three structure-side key columns of the join. -/
def structKeyCols : List String :=
  ["Проект", "Конструкция", "Вид_работ_по_классификатору"]

/-- Composite key of a (cleaned) structure row: the stripped values of
the three key columns joined with the `|||` separator. -/
def structRowKeyOf (r : Row) : String :=
  pyStripStr (cellToStr (r.get "Проект")) ++ "|||" ++
  pyStripStr (cellToStr (r.get "Конструкция")) ++ "|||" ++
  pyStripStr (cellToStr (r.get "Вид_работ_по_классификатору"))

/-- Composite key of a (cleaned) documentation row. -/
def docRowKeyOf (r : Row) : String :=
  pyStripStr (cellToStr (r.get "Шифр_комплекта")) ++ "|||" ++
  pyStripStr (cellToStr (r.get "Конструктивный_элемент")) ++ "|||" ++
  pyStripStr (cellToStr (r.get "Вид_работ"))

/-- The matcher's empty-key filter on documentation rows, expressed on
the raw row: every key component is nonempty after cleanup. -/
def docSurvives (r : Row) : Bool :=
  idTextCols.all (fun c => pyStripStr (cellToStr (r.get c)) ≠ "")

/-- The documentation-side volume of a raw row. -/
def docVol (r : Row) : ℚ := cellToNum (r.get "Объем_по_документу")

/-- Groupby-and-sum: one entry per distinct key, carrying the sum of
the values over the rows with that key (the `groupby('composite_key')
['Объем_по_документу'].sum()` step). -/
def groupSums (key : Row → String) (vol : Row → ℚ) (rs : List Row) :
    List (String × ℚ) :=
  ((rs.map key).dedup).map (fun k =>
    (k, ((rs.filter (fun r => decide (key r = k))).map vol).sum))

/-- Lookup in the grouped sums with the `fillna(0)` default — the
`map(id_volume_dict).fillna(0)` step. -/
def dictGet (d : List (String × ℚ)) (k : String) : ℚ :=
  match d.find? (fun p => p.1 = k) with
  | some p => p.2
  | none => 0

/-- Embedding of `DataProcessor.optimize_matching`.  When a mandatory
documentation column is missing the matcher returns the structure
table unchanged; a missing structure key column raises a `KeyError`
inside the guarded block, which the handler also answers by returning
the structure table unchanged — the second branch models that.
Otherwise: clean the key columns on working copies, drop documentation
rows with an empty key component, group their volumes by composite
key, and write each structure row's looked-up sum (default `0`) into
`Подтверждено_ИД` of the original table. -/
def optimize_matching (pivot idt : Table) : Table :=
  if idNeededCols.any (fun c => !idt.headers.contains c) then pivot
  else if structKeyCols.any (fun c => !pivot.headers.contains c) then pivot
  else
    let sdf := structKeyCols.foldl (fun s c =>
      if s.headers.contains c then s.transformCol c cleanTextCell else s) pivot
    let idw := idTextCols.foldl (fun s c =>
      if s.headers.contains c then s.transformCol c cleanTextCell else s) idt
    let idRows := idw.rows.filter (fun r =>
      idTextCols.all (fun c => cellToStr (r.get c) ≠ ""))
    let grouped := groupSums docRowKeyOf docVol idRows
    { headers := if pivot.headers.contains "Подтверждено_ИД" then pivot.headers
                 else pivot.headers ++ ["Подтверждено_ИД"],
      rows := (pivot.rows.zip sdf.rows).map (fun pr =>
        pr.1.setCell "Подтверждено_ИД" (Cell.num (dictGet grouped (structRowKeyOf pr.2)))) }

/-! ### Report builder and pipeline -/

/-- Display renames of `create_final_report`. -/
def finalRenames : List (String × String) :=
  [("Вид_работ_по_классификатору", "Вид работ по классификатору"),
   ("Ед_изм", "Ед. изм."), ("Проектный_объем", "Проектный объем"),
   ("Выполнено_в_натуре", "Выполнено в натуре"),
   ("Принято_по_RFI", "Принято по RFI (технадзор)"),
   ("Подтверждено_ИД", "Подтверждено ИД")]

/-- Fixed display column order of the report. -/
def finalColumnOrder : List String :=
  ["Проект", "Марка", "Конструкция", "Вид работ по классификатору",
   "Ед. изм.", "Проектный объем", "Выполнено в натуре",
   "Принято по RFI (технадзор)", "Подтверждено ИД"]

/-- Embedding of `DataProcessor.create_final_report`: rename canonical
fields to display labels and keep the fixed column order, silently
dropping absent columns. -/
def create_final_report (t : Table) : Table :=
  let t1 := t.renameCols finalRenames
  t1.selectCols (finalColumnOrder.filter (fun c => t1.headers.contains c))

/-- The pipeline of `process_files` after the two worksheets have been
read: a `none` from either loader or from the aggregator aborts the run
before any report is produced. -/
def runPipeline (structureRaw idRaw : Table) : Option Table :=
  match load_structure_data structureRaw with
  | none => none
  | some s =>
    match load_id_data idRaw with
    | none => none
    | some i =>
      match create_pivot_table s with
      | none => none
      | some p => some (create_final_report (optimize_matching p i))

/-! ### Characterization definitions used by the theorems -/

/-- A character list whose head, if any, is not whitespace. -/
def NoLeadWs (l : List Char) : Prop := ∀ c, l.head? = some c → isPyWs c = false

/-- Row-level form of a guarded column-cleanup loop: for each listed
column present in the header list, rewrite its cell through `f`. -/
def rowClean (hs : List String) (f : Cell → Cell) (cols : List String) (r : Row) : Row :=
  rowGuardFold (fun c => hs.contains c) f cols r

/-- Aggregated sum of a numeric column over the input rows of one
cleaned-key group; a column absent from the input contributes `0`
per row (the aggregator inserts it as the constant `0`). -/
def groupSum (t : Table) (k : String × String × String × String × String)
    (c : String) : ℚ :=
  ((t.rows.filter (fun r => decide (cleanKey5 r = k))).map
    (fun r => if t.headers.contains c then cellToNum (r.get c) else 0)).sum

/-- Modelled from the spec: the join-key normalization the spec
describes — trim leading/trailing whitespace and collapse runs of
internal whitespace, with no case folding.  Used only to compare the
spec's claimed normalization with the one the matcher implements. -/
def specJoinNorm (s : String) : String := ⟨collapseWs (pyStrip s.data)⟩

/-- A one-row structure table with the given three key values (used to
state the matcher's key-equality behaviour). -/
def singleStructTable (p1 p2 p3 : String) : Table :=
  { headers := ["Проект", "Конструкция", "Вид_работ_по_классификатору", "Подтверждено_ИД"],
    rows := [[("Проект", Cell.str p1), ("Конструкция", Cell.str p2),
              ("Вид_работ_по_классификатору", Cell.str p3),
              ("Подтверждено_ИД", Cell.num 0)]] }

/-- A one-row documentation table with the given three key values and
volume. -/
def singleDocTable (d1 d2 d3 : String) (q : ℚ) : Table :=
  { headers := ["Шифр_комплекта", "Конструктивный_элемент", "Вид_работ", "Объем_по_документу"],
    rows := [[("Шифр_комплекта", Cell.str d1), ("Конструктивный_элемент", Cell.str d2),
              ("Вид_работ", Cell.str d3), ("Объем_по_документу", Cell.num q)]] }

/-! ### Concrete tables for witnesses and counterexamples -/

/-- Scenario A structure table: one aggregated row keyed
`AB-12`/`Wall-1`/`Concreting`. -/
def scenStruct : Table :=
  { headers := ["Проект", "Марка", "Конструкция", "Вид_работ_по_классификатору", "Ед_изм",
                "Проектный_объем", "Выполнено_в_натуре", "Принято_по_RFI", "Подтверждено_ИД"],
    rows := [[("Проект", Cell.str "AB-12"), ("Марка", Cell.str "M"),
              ("Конструкция", Cell.str "Wall-1"),
              ("Вид_работ_по_классификатору", Cell.str "Concreting"),
              ("Ед_изм", Cell.str "m3"), ("Проектный_объем", Cell.num 100),
              ("Выполнено_в_натуре", Cell.num 0), ("Принято_по_RFI", Cell.num 0),
              ("Подтверждено_ИД", Cell.num 0)]] }

/-- Scenario A documentation table: two rows with the same key and
volumes `50` and `30`. -/
def scenDoc : Table :=
  { headers := ["Шифр_комплекта", "Конструктивный_элемент", "Вид_работ", "Объем_по_документу"],
    rows := [[("Шифр_комплекта", Cell.str "AB-12"), ("Конструктивный_элемент", Cell.str "Wall-1"),
              ("Вид_работ", Cell.str "Concreting"), ("Объем_по_документу", Cell.num 50)],
             [("Шифр_комплекта", Cell.str "AB-12"), ("Конструктивный_элемент", Cell.str "Wall-1"),
              ("Вид_работ", Cell.str "Concreting"), ("Объем_по_документу", Cell.num 30)]] }

/-- A structure row whose `Проект` is empty and whose other key parts
contain a `|` character, exhibiting a separator collision. -/
def emptyKeyStruct : Table :=
  { headers := ["Проект", "Конструкция", "Вид_работ_по_классификатору", "Подтверждено_ИД"],
    rows := [[("Проект", Cell.str ""), ("Конструкция", Cell.str "|a"),
              ("Вид_работ_по_классификатору", Cell.str "b"),
              ("Подтверждено_ИД", Cell.num 0)]] }

/-- A documentation row with all key parts nonempty whose concatenated
key collides with the empty-`Проект` structure row above. -/
def collideDoc : Table :=
  { headers := ["Шифр_комплекта", "Конструктивный_элемент", "Вид_работ", "Объем_по_документу"],
    rows := [[("Шифр_комплекта", Cell.str "|"), ("Конструктивный_элемент", Cell.str "a"),
              ("Вид_работ", Cell.str "b"), ("Объем_по_документу", Cell.num 5)]] }

/-- A documentation table whose headers classify to all four target
fields but which has no data rows. -/
def emptyRowsDoc : Table :=
  { headers := ["Шифр_комплекта", "Конструктивный_элемент", "Вид_работ", "Объем_по_документу"],
    rows := [] }

/-- A structure table whose two rows differ only in trailing
whitespace of `Проект` (`"a "` versus `"a"`), with planned volumes
`40` and `60`. -/
def trimStruct : Table :=
  { headers := ["Проект", "Марка", "Конструкция", "Вид_работ_по_классификатору", "Ед_изм",
                "Проектный_объем"],
    rows := [[("Проект", Cell.str "a "), ("Марка", Cell.str "m"), ("Конструкция", Cell.str "c"),
              ("Вид_работ_по_классификатору", Cell.str "w"), ("Ед_изм", Cell.str "u"),
              ("Проектный_объем", Cell.num 40)],
             [("Проект", Cell.str "a"), ("Марка", Cell.str "m"), ("Конструкция", Cell.str "c"),
              ("Вид_работ_по_классификатору", Cell.str "w"), ("Ед_изм", Cell.str "u"),
              ("Проектный_объем", Cell.num 60)]] }

/-- Two structure rows with an identical (already clean) grouping key
and planned volumes `40` and `60` (spec Scenario D). -/
def scenDStruct : Table :=
  { headers := ["Проект", "Марка", "Конструкция", "Вид_работ_по_классификатору", "Ед_изм",
                "Проектный_объем", "Выполнено_в_натуре", "Принято_по_RFI"],
    rows := [[("Проект", Cell.str "p"), ("Марка", Cell.str "m"), ("Конструкция", Cell.str "c"),
              ("Вид_работ_по_классификатору", Cell.str "w"), ("Ед_изм", Cell.str "u"),
              ("Проектный_объем", Cell.num 40), ("Выполнено_в_натуре", Cell.num 1),
              ("Принято_по_RFI", Cell.num 2)],
             [("Проект", Cell.str "p"), ("Марка", Cell.str "m"), ("Конструкция", Cell.str "c"),
              ("Вид_работ_по_классификатору", Cell.str "w"), ("Ед_изм", Cell.str "u"),
              ("Проектный_объем", Cell.num 60), ("Выполнено_в_натуре", Cell.num 3),
              ("Принято_по_RFI", Cell.num 4)]] }

/-- A structure table carrying only the five identifying columns, with
all three numeric volume columns absent. -/
def noNumStruct : Table :=
  { headers := ["Проект", "Марка", "Конструкция", "Вид_работ_по_классификатору", "Ед_изм"],
    rows := [[("Проект", Cell.str "p"), ("Марка", Cell.str "m"), ("Конструкция", Cell.str "c"),
              ("Вид_работ_по_классификатору", Cell.str "w"), ("Ед_изм", Cell.str "u")]] }

/-- A documentation table lacking the `Объем_по_документу` column. -/
def lackingDoc : Table :=
  { headers := ["Шифр_комплекта", "Конструктивный_элемент", "Вид_работ"],
    rows := [[("Шифр_комплекта", Cell.str "x"), ("Конструктивный_элемент", Cell.str "y"),
              ("Вид_работ", Cell.str "z")]] }

/-- A structure table on which renaming creates a duplicated label:
`Проект лишний` is classified to `Проект` while the literal `Проект`
header stays unmapped, and three of the five identifying fields are
present. -/
def dupLabelStruct : Table :=
  { headers := ["Проект лишний", "Проект", "Марка", "Конструкция"],
    rows := [[("Проект лишний", Cell.str "p"), ("Проект", Cell.str "q"),
              ("Марка", Cell.str "m"), ("Конструкция", Cell.str "c")]] }

/-- A documentation table mapping only `Шифр_комплекта` and
`Объем_по_документу` (which meets the threshold) with one row that
survives the empty-key filter, so the sample-logging block reads the
unassigned columns. -/
def sparseDoc : Table :=
  { headers := ["Шифры комплектов РД", "Объем по документу Work Scopes"],
    rows := [[("Шифры комплектов РД", Cell.str "x"),
              ("Объем по документу Work Scopes", Cell.num 3)]] }


/-! ### Row and cleanup lemmas -/

theorem Row.get_setCell_self (r : Row) (n : String) (v : Cell) :
    (r.setCell n v).get n = v := by
  induction r with
  | nil => simp [Row.setCell, Row.get]
  | cons p r ih =>
      by_cases h : p.1 = n
      · simp [Row.setCell, h, Row.get]
      · simp [Row.setCell, h, Row.get, ih]

theorem Row.get_setCell_of_ne (r : Row) (n m : String) (v : Cell) (h : m ≠ n) :
    (r.setCell n v).get m = r.get m := by
  induction r with
  | nil =>
      have hnm : n ≠ m := fun hc => h hc.symm
      simp [Row.setCell, Row.get, hnm]
  | cons p r ih =>
      by_cases hp : p.1 = n
      · subst hp
        have hnm : p.1 ≠ m := fun hc => h hc.symm
        simp [Row.setCell, Row.get, hnm]
      · simp [Row.setCell, hp, Row.get, ih]

theorem get_rowGuardFold (g : String → Bool) (f : Cell → Cell) (cols : List String)
    (r : Row) (m : String) (hnd : cols.Nodup) :
    (rowGuardFold g f cols r).get m =
      if m ∈ cols ∧ g m = true then f (r.get m) else r.get m := by
  induction cols generalizing r with
  | nil => simp [rowGuardFold]
  | cons c cs ih =>
      have hnd2 : cs.Nodup := hnd.of_cons
      have step : rowGuardFold g f (c :: cs) r =
          rowGuardFold g f cs (if g c = true then r.setCell c (f (r.get c)) else r) := by
        by_cases hg : g c = true <;> simp [rowGuardFold, hg]
      rw [step, ih _ hnd2]
      by_cases hmc : m = c
      · subst hmc
        have hm : m ∉ cs := (List.nodup_cons.mp hnd).1
        by_cases hg : g m = true
        · simp [hg, hm, Row.get_setCell_self]
        · simp [hg, hm]
      · by_cases hg : g c = true
        · rw [if_pos hg, Row.get_setCell_of_ne _ _ _ _ hmc]
          by_cases hin : m ∈ cs
          · simp [hin, hmc]
          · simp [hin, hmc]
        · simp [hg, hmc]


theorem tableGuardClean_eq (cols : List String) (f : Cell → Cell) (t : Table) :
    cols.foldl (fun s c => if s.headers.contains c then s.transformCol c f else s) t =
      { headers := t.headers, rows := t.rows.map (rowClean t.headers f cols) } := by
  induction cols generalizing t with
  | nil =>
      cases t with
      | mk hs rs =>
          have hid : rowClean hs f [] = fun r => r := rfl
          simp [hid]
  | cons c cs ih =>
      have step : (c :: cs).foldl
            (fun s c => if s.headers.contains c then s.transformCol c f else s) t =
          cs.foldl (fun s c => if s.headers.contains c then s.transformCol c f else s)
            (if t.headers.contains c then t.transformCol c f else t) := by
        by_cases hg : t.headers.contains c <;> simp [hg]
      rw [step]
      by_cases hg : t.headers.contains c = true
      · have hg2 : c ∈ t.headers := by simpa using hg
        rw [if_pos hg, ih]
        simp only [Table.transformCol, List.map_map, Table.mk.injEq, true_and]
        apply List.map_congr_left
        intro r _
        simp [Function.comp, rowClean, rowGuardFold, hg2]
      · have hg2 : c ∉ t.headers := by simpa using hg
        rw [if_neg hg, ih]
        simp only [Table.mk.injEq, true_and]
        apply List.map_congr_left
        intro r _
        simp [rowClean, rowGuardFold, hg2]


/-! ### Strip lemmas -/

theorem noLeadWs_dropWhile (l : List Char) : NoLeadWs (l.dropWhile isPyWs) := by
  induction l with
  | nil => intro c h; simp at h
  | cons a t ih =>
      by_cases ha : isPyWs a = true
      · simpa [List.dropWhile_cons, ha] using ih
      · intro c h
        simp [List.dropWhile_cons, Bool.of_not_eq_true ha] at h
        rw [← h]
        exact Bool.of_not_eq_true ha


theorem dropWhile_eq_self_of_noLeadWs {l : List Char} (h : NoLeadWs l) :
    l.dropWhile isPyWs = l := by
  cases l with
  | nil => rfl
  | cons a t =>
      have := h a (by rfl)
      simp [List.dropWhile_cons, this]

theorem noLeadWs_of_isPrefix {a b : List Char} (hp : b <+: a) (h : NoLeadWs a) :
    NoLeadWs b := by
  intro c hc
  rcases hp with ⟨tl, rfl⟩
  apply h
  cases b with
  | nil => simp at hc
  | cons x xs => simpa using hc

theorem pyStrip_reverse_noLeadWs (l : List Char) : NoLeadWs (pyStrip l).reverse := by
  rw [pyStrip, List.reverse_reverse]
  exact noLeadWs_dropWhile _

theorem pyStrip_noLeadWs (l : List Char) : NoLeadWs (pyStrip l) := by
  rw [pyStrip]
  have h1 : NoLeadWs (l.dropWhile isPyWs) := noLeadWs_dropWhile _
  have hp : ((l.dropWhile isPyWs).reverse.dropWhile isPyWs).reverse <+: l.dropWhile isPyWs := by
    have := List.reverse_prefix.mpr
      (List.dropWhile_suffix (l := (l.dropWhile isPyWs).reverse) isPyWs)
    simpa using this
  exact noLeadWs_of_isPrefix hp h1

theorem pyStrip_idem (l : List Char) : pyStrip (pyStrip l) = pyStrip l := by
  have h1 := pyStrip_noLeadWs l
  have h2 := pyStrip_reverse_noLeadWs l
  rw [pyStrip, dropWhile_eq_self_of_noLeadWs h1, dropWhile_eq_self_of_noLeadWs h2,
    List.reverse_reverse]

theorem pyStripStr_idem (s : String) : pyStripStr (pyStripStr s) = pyStripStr s := by
  simp [pyStripStr, pyStrip_idem]


/-! ### Cleanup-versus-key lemmas -/

theorem cellToStr_cleanTextCell (c : Cell) :
    cellToStr (cleanTextCell c) = pyStripStr (cellToStr c) := rfl

theorem strip_cellToStr_cleanTextCell (c : Cell) :
    pyStripStr (cellToStr (cleanTextCell c)) = pyStripStr (cellToStr c) := by
  rw [cellToStr_cleanTextCell, pyStripStr_idem]

theorem get_rowGuardFold_of_not_mem (g : String → Bool) (f : Cell → Cell)
    (cols : List String) (r : Row) (m : String) (hnd : cols.Nodup) (hm : m ∉ cols) :
    (rowGuardFold g f cols r).get m = r.get m := by
  rw [get_rowGuardFold _ _ _ _ _ hnd]
  simp [hm]

theorem stripped_get_rowClean (hs cols : List String) (r : Row) (m : String)
    (hnd : cols.Nodup) :
    pyStripStr (cellToStr ((rowClean hs cleanTextCell cols r).get m)) =
      pyStripStr (cellToStr (r.get m)) := by
  rw [rowClean, get_rowGuardFold _ _ _ _ _ hnd]
  split
  · exact strip_cellToStr_cleanTextCell _
  · rfl

theorem cellToStr_get_rowClean_of_mem (hs cols : List String) (r : Row) (m : String)
    (hnd : cols.Nodup) (hm : m ∈ cols) (hc : hs.contains m = true) :
    cellToStr ((rowClean hs cleanTextCell cols r).get m) = pyStripStr (cellToStr (r.get m)) := by
  rw [rowClean, get_rowGuardFold _ _ _ _ _ hnd, if_pos ⟨hm, hc⟩]
  rfl

theorem structRowKeyOf_rowClean (hs : List String) (r : Row) :
    structRowKeyOf (rowClean hs cleanTextCell structKeyCols r) = structRowKeyOf r := by
  have hnd : structKeyCols.Nodup := by decide
  rw [structRowKeyOf, structRowKeyOf, stripped_get_rowClean _ _ _ _ hnd,
    stripped_get_rowClean _ _ _ _ hnd, stripped_get_rowClean _ _ _ _ hnd]

theorem docRowKeyOf_rowClean (hs : List String) (r : Row) :
    docRowKeyOf (rowClean hs cleanTextCell idTextCols r) = docRowKeyOf r := by
  have hnd : idTextCols.Nodup := by decide
  rw [docRowKeyOf, docRowKeyOf, stripped_get_rowClean _ _ _ _ hnd,
    stripped_get_rowClean _ _ _ _ hnd, stripped_get_rowClean _ _ _ _ hnd]

theorem docVol_rowClean (hs : List String) (r : Row) :
    docVol (rowClean hs cleanTextCell idTextCols r) = docVol r := by
  rw [docVol, docVol, rowClean,
    get_rowGuardFold_of_not_mem _ _ _ _ _ (by decide) (by decide)]

theorem survives_rowClean (hs : List String) (r : Row)
    (hc : ∀ c ∈ idTextCols, hs.contains c = true) :
    (idTextCols.all (fun c =>
      cellToStr ((rowClean hs cleanTextCell idTextCols r).get c) ≠ "")) = docSurvives r := by
  have hnd : idTextCols.Nodup := by decide
  have h1 := cellToStr_get_rowClean_of_mem hs idTextCols r "Шифр_комплекта" hnd (by decide)
    (hc _ (by decide))
  have h2 := cellToStr_get_rowClean_of_mem hs idTextCols r "Конструктивный_элемент" hnd (by decide)
    (hc _ (by decide))
  have h3 := cellToStr_get_rowClean_of_mem hs idTextCols r "Вид_работ" hnd (by decide)
    (hc _ (by decide))
  rw [docSurvives]
  simp only [idTextCols, List.all_cons, List.all_nil, Bool.and_true] at h1 h2 h3 ⊢
  simp only [h1, h2, h3]

/-! ### Groupby correctness -/

theorem find?_eq_some_self {k : String} {l : List String} (h : k ∈ l) :
    l.find? (fun x => decide (x = k)) = some k := by
  induction l with
  | nil => cases h
  | cons a t ih =>
      by_cases ha : a = k
      · subst ha; simp [List.find?_cons]
      · have ht : k ∈ t := by
          cases h with
          | head => exact absurd rfl ha
          | tail _ h2 => exact h2
        simp [List.find?_cons, ha, ih ht]

theorem dictGet_groupSums (key : Row → String) (vol : Row → ℚ) (rs : List Row) (k : String) :
    dictGet (groupSums key vol rs) k =
      ((rs.filter (fun r => decide (key r = k))).map vol).sum := by
  rw [dictGet, groupSums]
  by_cases hk : k ∈ (rs.map key).dedup
  · rw [List.find?_map]
    have : List.find? ((fun p => decide ((p : String × ℚ).1 = k)) ∘
        (fun k2 => (k2, ((rs.filter (fun r => decide (key r = k2))).map vol).sum)))
        (rs.map key).dedup = some k := by
      have hcongr : ((fun p => decide ((p : String × ℚ).1 = k)) ∘
          (fun k2 => (k2, ((rs.filter (fun r => decide (key r = k2))).map vol).sum))) =
          fun x => decide (x = k) := by
        funext x; rfl
      rw [hcongr]
      exact find?_eq_some_self hk
    rw [this]
    simp
  · rw [List.find?_map]
    have hnone : List.find? ((fun p => decide ((p : String × ℚ).1 = k)) ∘
        (fun k2 => (k2, ((rs.filter (fun r => decide (key r = k2))).map vol).sum)))
        (rs.map key).dedup = none := by
      rw [List.find?_eq_none]
      intro x hx
      simp only [Function.comp]
      have : x ≠ k := fun hxk => hk (hxk ▸ hx)
      simp [this]
    rw [hnone]
    have hfe : rs.filter (fun r => decide (key r = k)) = [] := by
      rw [List.filter_eq_nil_iff]
      intro r hr
      have : key r ∈ (rs.map key).dedup := List.mem_dedup.mpr (List.mem_map_of_mem key hr)
      intro hkr
      rw [decide_eq_true_eq] at hkr
      exact hk (hkr ▸ this)
    rw [hfe]
    simp


/-! ### Matcher normal form -/

theorem zip_self_map {α β : Type} (l : List α) (f : α → β) :
    l.zip (l.map f) = l.map (fun a => (a, f a)) := by
  induction l with
  | nil => rfl
  | cons a t ih => simp [List.zip_cons_cons, ih]

theorem docFilterSum_eq (idt : Table) (K : String) :
    ((((idt.rows.filter docSurvives).map
          (rowClean idt.headers cleanTextCell idTextCols)).filter
            (fun r => decide (docRowKeyOf r = K))).map docVol).sum =
      (((idt.rows.filter docSurvives).filter
          (fun r => decide (docRowKeyOf r = K))).map docVol).sum := by
  rw [List.filter_map, List.map_map]
  have h1 : ((fun r => decide (docRowKeyOf r = K)) ∘
      rowClean idt.headers cleanTextCell idTextCols) = fun r => decide (docRowKeyOf r = K) := by
    funext r
    simp [Function.comp, docRowKeyOf_rowClean]
  have h2 : (docVol ∘ rowClean idt.headers cleanTextCell idTextCols) = docVol := by
    funext r
    simp [Function.comp, docVol_rowClean]
  rw [h1, h2]

theorem optimize_matching_eq (pivot idt : Table)
    (hI : ∀ c ∈ idNeededCols, idt.headers.contains c = true)
    (hS : ∀ c ∈ structKeyCols, pivot.headers.contains c = true) :
    optimize_matching pivot idt =
      { headers := if pivot.headers.contains "Подтверждено_ИД" then pivot.headers
                   else pivot.headers ++ ["Подтверждено_ИД"],
        rows := pivot.rows.map (fun pr =>
          pr.setCell "Подтверждено_ИД" (Cell.num
            (((idt.rows.filter docSurvives).filter
                (fun r => decide (docRowKeyOf r = structRowKeyOf pr))).map docVol).sum)) } := by
  have hI2 : (idNeededCols.any (fun c => !idt.headers.contains c)) = false := by
    rw [List.any_eq_false]
    intro c hc
    simpa using hI c hc
  have hS2 : (structKeyCols.any (fun c => !pivot.headers.contains c)) = false := by
    rw [List.any_eq_false]
    intro c hc
    simpa using hS c hc
  have hIt : ∀ c ∈ idTextCols, idt.headers.contains c = true := by
    intro c hc
    apply hI
    simp only [idTextCols, List.mem_cons, List.not_mem_nil, or_false] at hc
    rcases hc with rfl | rfl | rfl <;> decide
  rw [optimize_matching, if_neg (by rw [hI2]; exact Bool.false_ne_true),
    if_neg (by rw [hS2]; exact Bool.false_ne_true)]
  simp only [tableGuardClean_eq]
  have hrows : List.filter (fun r => idTextCols.all (fun c => cellToStr (r.get c) ≠ ""))
      (List.map (rowClean idt.headers cleanTextCell idTextCols) idt.rows) =
      (idt.rows.filter docSurvives).map (rowClean idt.headers cleanTextCell idTextCols) := by
    rw [List.filter_map]
    congr 1
    apply List.filter_congr
    intro r _
    simp only [Function.comp]
    exact survives_rowClean idt.headers r hIt
  rw [hrows, zip_self_map, List.map_map]
  refine congrArg _ ?_
  apply List.map_congr_left
  intro pr _
  simp only [Function.comp]
  rw [structRowKeyOf_rowClean, dictGet_groupSums, docFilterSum_eq]


/-! ### Claim theorems -/

/-- C1: for every row of the aggregated structure table, the matcher
sets `Подтверждено_ИД` to the sum of `Объем_по_документу` over exactly
the documentation rows surviving the empty-key filter whose composite
key equals that structure row's composite key (the sum over an empty
selection being `0`). -/
theorem C1_confirmed_sum (pivot idt : Table)
    (hI : ∀ c ∈ idNeededCols, idt.headers.contains c = true)
    (hS : ∀ c ∈ structKeyCols, pivot.headers.contains c = true) (i : ℕ) :
    ((optimize_matching pivot idt).rows[i]?).map (fun r => r.get "Подтверждено_ИД") =
      (pivot.rows[i]?).map (fun pr => Cell.num
        (((idt.rows.filter docSurvives).filter
            (fun r => decide (docRowKeyOf r = structRowKeyOf pr))).map docVol).sum) := by
  rw [optimize_matching_eq pivot idt hI hS]
  show ((pivot.rows.map _)[i]?).map _ = _
  rw [List.getElem?_map]
  cases pivot.rows[i]? with
  | none => rfl
  | some pr => simp [Row.get_setCell_self]

theorem C1_confirmed_sum_w :
    ((optimize_matching scenStruct scenDoc).rows[0]?).map
        (fun r => r.get "Подтверждено_ИД") = some (Cell.num 80) := by
  have h := C1_confirmed_sum scenStruct scenDoc (by decide) (by decide) 0
  rw [h]
  have h2 : some (Cell.num ((50 : ℚ) + (30 + 0))) = some (Cell.num 80) := by norm_num
  rw [← h2]
  rfl


/-- C8: the join is left-complete — the matcher's output has exactly
one row per input structure row, in place: the row count is preserved
and every column other than `Подтверждено_ИД` of every row is returned
exactly as received. -/
theorem C8_left_complete (pivot idt : Table) (i : ℕ) (m : String)
    (hm : m ≠ "Подтверждено_ИД") :
    (optimize_matching pivot idt).rows.length = pivot.rows.length ∧
    ((optimize_matching pivot idt).rows[i]?).map (fun r => r.get m) =
      (pivot.rows[i]?).map (fun r => r.get m) := by
  rw [optimize_matching]
  split
  · exact ⟨rfl, rfl⟩
  · split
    · exact ⟨rfl, rfl⟩
    · simp only [tableGuardClean_eq]
      rw [zip_self_map, List.map_map]
      refine ⟨by rw [List.length_map], ?_⟩
      · rw [List.getElem?_map]
        cases hpr : pivot.rows[i]? with
        | none => rfl
        | some pr =>
            simp [Function.comp, Row.get_setCell_of_ne _ _ _ _ hm]

theorem C8_left_complete_w :
    (optimize_matching scenStruct scenDoc).rows.length = scenStruct.rows.length ∧
    ((optimize_matching scenStruct scenDoc).rows[0]?).map (fun r => r.get "Проект") =
      (scenStruct.rows[0]?).map (fun r => r.get "Проект") :=
  C8_left_complete scenStruct scenDoc 0 "Проект" (by decide)

/-- C6: when a mandatory column of either input is missing — any of
the four documentation columns, or any of the three structure key
columns the matcher reads — the matcher performs no match and returns
the aggregated structure table unmodified. -/
theorem C6_missing_cols_unmodified (pivot idt : Table)
    (h : (∃ c ∈ idNeededCols, idt.headers.contains c = false) ∨
         (∃ c ∈ structKeyCols, pivot.headers.contains c = false)) :
    optimize_matching pivot idt = pivot := by
  rw [optimize_matching]
  rcases h with ⟨c, hc, hfalse⟩ | ⟨c, hc, hfalse⟩
  · rw [if_pos (List.any_eq_true.mpr ⟨c, hc, by simpa using hfalse⟩)]
  · by_cases hg : (idNeededCols.any fun c => !idt.headers.contains c) = true
    · rw [if_pos hg]
    · rw [if_neg hg, if_pos (List.any_eq_true.mpr ⟨c, hc, by simpa using hfalse⟩)]

theorem C6_missing_cols_unmodified_w :
    optimize_matching scenStruct lackingDoc = scenStruct :=
  C6_missing_cols_unmodified scenStruct lackingDoc
    (Or.inl ⟨"Объем_по_документу", by decide, by decide⟩)


/-- C2 (amended): documentation rows with an empty composite-key
component are excluded from the join — the matcher's result is
unchanged when such rows are removed from the documentation input —
while structure rows are never dropped: the output keeps one row per
structure row whatever its key components. -/
theorem C2_empty_key_rows (pivot idt : Table) :
    optimize_matching pivot idt =
      optimize_matching pivot { headers := idt.headers, rows := idt.rows.filter docSurvives } ∧
    (optimize_matching pivot idt).rows.length = pivot.rows.length := by
  by_cases hg1 : (idNeededCols.any fun c => !idt.headers.contains c) = true
  · have e1 : optimize_matching pivot idt = pivot := by
      rw [optimize_matching, if_pos hg1]
    have e2 : optimize_matching pivot
        { headers := idt.headers, rows := idt.rows.filter docSurvives } = pivot := by
      rw [optimize_matching]
      dsimp only
      rw [if_pos hg1]
    exact ⟨e1.trans e2.symm, by rw [e1]⟩
  · by_cases hg2 : (structKeyCols.any fun c => !pivot.headers.contains c) = true
    · have e1 : optimize_matching pivot idt = pivot := by
        rw [optimize_matching, if_neg hg1, if_pos hg2]
      have e2 : optimize_matching pivot
          { headers := idt.headers, rows := idt.rows.filter docSurvives } = pivot := by
        rw [optimize_matching]
        dsimp only
        rw [if_neg hg1, if_pos hg2]
      exact ⟨e1.trans e2.symm, by rw [e1]⟩
    · have hI : ∀ c ∈ idNeededCols, idt.headers.contains c = true := by
        intro c hc
        by_contra hcc
        exact hg1 (List.any_eq_true.mpr ⟨c, hc, by
          have hfalse : idt.headers.contains c = false := Bool.eq_false_iff.mpr hcc
          simpa using hfalse⟩)
      have hS : ∀ c ∈ structKeyCols, pivot.headers.contains c = true := by
        intro c hc
        by_contra hcc
        exact hg2 (List.any_eq_true.mpr ⟨c, hc, by
          have hfalse : pivot.headers.contains c = false := Bool.eq_false_iff.mpr hcc
          simpa using hfalse⟩)
      constructor
      · rw [optimize_matching_eq pivot idt hI hS,
          optimize_matching_eq pivot
            { headers := idt.headers, rows := idt.rows.filter docSurvives }
            (by dsimp only; exact hI) hS]
        dsimp only
        rw [List.filter_filter]
        simp
      · rw [optimize_matching_eq pivot idt hI hS]
        dsimp only
        rw [List.length_map]

/-- C2 counterexample: a structure row with an empty `Проект` is not
dropped by the matcher — the output still has the row — and through a
`|||`-separator collision (`"" ||| "|a" ||| "b"` versus
`"|" ||| "a" ||| "b"`) it even receives a matched volume of `5`,
contradicting the claim that rows with an empty key component are
excluded from the join on either side. -/
theorem C2_empty_key_rows_ce :
    (optimize_matching emptyKeyStruct collideDoc).rows.length = 1 ∧
    ((optimize_matching emptyKeyStruct collideDoc).rows[0]?).map
        (fun r => r.get "Проект") = some (Cell.str "") ∧
    ((optimize_matching emptyKeyStruct collideDoc).rows[0]?).map
        (fun r => r.get "Подтверждено_ИД") = some (Cell.num 5) := by
  refine ⟨rfl, rfl, ?_⟩
  have h2 : some (Cell.num ((5 : ℚ) + 0)) = some (Cell.num 5) := by norm_num
  rw [← h2]
  rfl


/-- C3 (amended): the matcher's key normalization only strips leading
and trailing whitespace — it does not collapse internal whitespace and
does not fold case.  For one-row inputs with nonempty stripped
documentation key parts, the matched volume is `q` exactly when the
`|||`-joined stripped key components coincide, and `0` otherwise. -/
theorem C3_join_norm (p1 p2 p3 d1 d2 d3 : String) (q : ℚ)
    (h1 : pyStripStr d1 ≠ "") (h2 : pyStripStr d2 ≠ "") (h3 : pyStripStr d3 ≠ "") :
    ((optimize_matching (singleStructTable p1 p2 p3)
        (singleDocTable d1 d2 d3 q)).rows[0]?).map (fun r => r.get "Подтверждено_ИД") =
      some (Cell.num
        (if pyStripStr d1 ++ "|||" ++ pyStripStr d2 ++ "|||" ++ pyStripStr d3 =
            pyStripStr p1 ++ "|||" ++ pyStripStr p2 ++ "|||" ++ pyStripStr p3
         then q else 0)) := by
  rw [optimize_matching_eq _ _ (by intro c hc; fin_cases hc <;> rfl)
    (by intro c hc; fin_cases hc <;> rfl)]
  dsimp only [singleStructTable, singleDocTable]
  simp only [List.map_cons, List.map_nil, List.getElem?_cons_zero, Option.map_some']
  rw [Row.get_setCell_self]
  have hsurv : docSurvives [("Шифр_комплекта", Cell.str d1),
      ("Конструктивный_элемент", Cell.str d2), ("Вид_работ", Cell.str d3),
      ("Объем_по_документу", Cell.num q)] = true := by
    simp [docSurvives, idTextCols, Row.get, cellToStr, h1, h2, h3]
  have hdk : docRowKeyOf [("Шифр_комплекта", Cell.str d1),
      ("Конструктивный_элемент", Cell.str d2), ("Вид_работ", Cell.str d3),
      ("Объем_по_документу", Cell.num q)] =
      pyStripStr d1 ++ "|||" ++ pyStripStr d2 ++ "|||" ++ pyStripStr d3 := by
    simp [docRowKeyOf, Row.get, cellToStr]
  have hsk : structRowKeyOf [("Проект", Cell.str p1), ("Конструкция", Cell.str p2),
      ("Вид_работ_по_классификатору", Cell.str p3), ("Подтверждено_ИД", Cell.num 0)] =
      pyStripStr p1 ++ "|||" ++ pyStripStr p2 ++ "|||" ++ pyStripStr p3 := by
    simp [structRowKeyOf, Row.get, cellToStr]
  rw [List.filter_cons, hsurv]
  simp only [List.filter_nil, if_pos]
  rw [List.filter_cons, List.filter_nil, hdk, hsk]
  by_cases hkey : pyStripStr d1 ++ "|||" ++ pyStripStr d2 ++ "|||" ++ pyStripStr d3 =
      pyStripStr p1 ++ "|||" ++ pyStripStr p2 ++ "|||" ++ pyStripStr p3
  · rw [if_pos hkey]
    simp [hkey, docVol, Row.get, cellToNum]
  · rw [if_neg hkey]
    simp [hkey]

/-- C3 counterexample: the keys `("a  b", "x", "y")` and
`("a b", "x", "y")` differ only in the amount of internal whitespace,
and are identical under the spec's trim-and-collapse normalization;
the claim therefore predicts a match, but the matcher leaves the
structure row's `Подтверждено_ИД` at `0`. -/
theorem C3_join_norm_ce :
    ((optimize_matching (singleStructTable "a  b" "x" "y")
        (singleDocTable "a b" "x" "y" 7)).rows[0]?).map
          (fun r => r.get "Подтверждено_ИД") = some (Cell.num 0) ∧
    specJoinNorm "a  b" = specJoinNorm "a b" ∧ "a  b" ≠ "a b" := by
  exact ⟨rfl, rfl, by decide⟩


theorem C3_join_norm_w :
    ((optimize_matching (singleStructTable "X" "y" "z")
        (singleDocTable "x" "y" "z" 7)).rows[0]?).map
          (fun r => r.get "Подтверждено_ИД") = some (Cell.num 0) := by
  have h := C3_join_norm "X" "y" "z" "x" "y" "z" 7 (by decide) (by decide) (by decide)
  rw [h]
  rfl

/-! ### Aggregator lemmas -/

theorem key5_mkPivotRow (k : String × String × String × String × String) (a b c : ℚ) :
    key5 (mkPivotRow k a b c) = k := by
  simp [key5, mkPivotRow, Row.get, cellToStr]

theorem get_mkPivotRow_conf (k : String × String × String × String × String) (a b c : ℚ) :
    (mkPivotRow k a b c).get "Подтверждено_ИД" = Cell.num 0 := by
  simp [mkPivotRow, Row.get]

theorem get_mkPivotRow_pl (k : String × String × String × String × String) (a b c : ℚ) :
    (mkPivotRow k a b c).get "Проектный_объем" = Cell.num a := by
  simp [mkPivotRow, Row.get]

theorem get_mkPivotRow_ex (k : String × String × String × String × String) (a b c : ℚ) :
    (mkPivotRow k a b c).get "Выполнено_в_натуре" = Cell.num b := by
  simp [mkPivotRow, Row.get]

theorem get_mkPivotRow_rfi (k : String × String × String × String × String) (a b c : ℚ) :
    (mkPivotRow k a b c).get "Принято_по_RFI" = Cell.num c := by
  simp [mkPivotRow, Row.get]

theorem cellToStr_pivotClean (t : Table) (r : Row) (c : String)
    (hc : c ∈ structureRequiredCols) (hin : t.headers.contains c = true) :
    cellToStr ((rowClean
        (t.headers ++ structureNumericCols.filter (fun x => !t.headers.contains x))
        (fun x => Cell.str (pyStripStr (astypeStr x))) structureRequiredCols
        (rowNumFill t.headers r)).get c) = pyStripStr (astypeStr (r.get c)) := by
  have hin2 : (t.headers ++
      structureNumericCols.filter (fun x => !t.headers.contains x)).contains c = true := by
    have hm : c ∈ t.headers := by simpa using hin
    simp
    exact Or.inl hm
  have hnum : c ∉ structureNumericCols := by fin_cases hc <;> decide
  rw [rowClean, get_rowGuardFold _ _ _ _ _ (by decide), if_pos ⟨hc, hin2⟩,
    rowNumFill, get_rowGuardFold _ _ _ _ _ (by decide),
    if_neg (fun h => hnum h.1)]
  rfl


theorem key5_pivotClean (t : Table) (r : Row)
    (hG : ∀ c ∈ structureRequiredCols, t.headers.contains c = true) :
    key5 (rowClean
        (t.headers ++ structureNumericCols.filter (fun x => !t.headers.contains x))
        (fun x => Cell.str (pyStripStr (astypeStr x))) structureRequiredCols
        (rowNumFill t.headers r)) = cleanKey5 r := by
  rw [key5, cleanKey5]
  rw [cellToStr_pivotClean t r _ (by decide) (hG _ (by decide)),
    cellToStr_pivotClean t r _ (by decide) (hG _ (by decide)),
    cellToStr_pivotClean t r _ (by decide) (hG _ (by decide)),
    cellToStr_pivotClean t r _ (by decide) (hG _ (by decide)),
    cellToStr_pivotClean t r _ (by decide) (hG _ (by decide))]

theorem cellToNum_pivotClean (t : Table) (r : Row) (c : String)
    (hc : c ∈ structureNumericCols) :
    cellToNum ((rowClean
        (t.headers ++ structureNumericCols.filter (fun x => !t.headers.contains x))
        (fun x => Cell.str (pyStripStr (astypeStr x))) structureRequiredCols
        (rowNumFill t.headers r)).get c) =
      if t.headers.contains c = true then cellToNum (r.get c) else 0 := by
  have hreq : c ∉ structureRequiredCols := by fin_cases hc <;> decide
  rw [rowClean, get_rowGuardFold _ _ _ _ _ (by decide), if_neg (fun h => hreq h.1),
    rowNumFill, get_rowGuardFold _ _ _ _ _ (by decide)]
  by_cases hin : t.headers.contains c = true
  · rw [if_neg (fun h => by simp [hin] at h; exact h.2 (by simpa using hin)), if_pos hin]
  · have hf : t.headers.contains c = false := Bool.eq_false_iff.mpr hin
    rw [if_pos ⟨hc, by rw [hf]; rfl⟩, if_neg hin]
    rfl

theorem create_pivot_table_eq (t : Table)
    (hG : ∀ c ∈ structureRequiredCols, t.headers.contains c = true) :
    create_pivot_table t = some
      { headers := structureRequiredCols ++ structureNumericCols ++ ["Подтверждено_ИД"],
        rows := ((t.rows.map cleanKey5).dedup).map (fun k =>
          mkPivotRow k (groupSum t k "Проектный_объем")
            (groupSum t k "Выполнено_в_натуре") (groupSum t k "Принято_по_RFI")) } := by
  have hguard : ¬(structureRequiredCols.any (fun c => !t.headers.contains c)) = true := by
    intro h
    rcases List.any_eq_true.mp h with ⟨c, hc, hcc⟩
    have h2 := hG c hc
    rw [h2] at hcc
    exact absurd hcc (by decide)
  rw [create_pivot_table, if_neg hguard]
  simp only [tableGuardClean_eq]
  refine congrArg some (congrArg _ ?_)
  rw [List.map_map]
  have hpt : ∀ r : Row, key5 ((rowClean
      (t.headers ++ structureNumericCols.filter (fun x => !t.headers.contains x))
      (fun x => Cell.str (pyStripStr (astypeStr x))) structureRequiredCols ∘
        rowNumFill t.headers) r) = cleanKey5 r := by
    intro r
    exact key5_pivotClean t r hG
  have hkeys : (t.rows.map ((rowClean
      (t.headers ++ structureNumericCols.filter (fun x => !t.headers.contains x))
      (fun x => Cell.str (pyStripStr (astypeStr x))) structureRequiredCols ∘
        rowNumFill t.headers))).map key5 = t.rows.map cleanKey5 := by
    rw [List.map_map]
    exact List.map_congr_left (fun r _ => hpt r)
  rw [hkeys]
  apply List.map_congr_left
  intro k _
  have hgrp : (t.rows.map ((rowClean
      (t.headers ++ structureNumericCols.filter (fun x => !t.headers.contains x))
      (fun x => Cell.str (pyStripStr (astypeStr x))) structureRequiredCols ∘
        rowNumFill t.headers))).filter (fun r => decide (key5 r = k)) =
      (t.rows.filter (fun r => decide (cleanKey5 r = k))).map
        (rowClean (t.headers ++ structureNumericCols.filter (fun x => !t.headers.contains x))
          (fun x => Cell.str (pyStripStr (astypeStr x))) structureRequiredCols ∘
            rowNumFill t.headers) := by
    rw [List.filter_map]
    refine congrArg _ ?_
    apply List.filter_congr
    intro r _
    simp only [Function.comp]
    exact congrArg (fun s => decide (s = k)) (key5_pivotClean t r hG)
  rw [hgrp]
  have hsum : ∀ c, c ∈ structureNumericCols →
      sumCol ((t.rows.filter (fun r => decide (cleanKey5 r = k))).map
        (rowClean (t.headers ++ structureNumericCols.filter (fun x => !t.headers.contains x))
          (fun x => Cell.str (pyStripStr (astypeStr x))) structureRequiredCols ∘
            rowNumFill t.headers)) c = groupSum t k c := by
    intro c hc
    rw [sumCol, groupSum, List.map_map]
    refine congrArg _ (List.map_congr_left ?_)
    intro r _
    simp only [Function.comp]
    exact cellToNum_pivotClean t r c hc
  rw [hsum _ (by decide), hsum _ (by decide), hsum _ (by decide)]


/-- C7 (amended): the aggregator first strips (and stringifies) the
five key columns, then produces exactly one output row per distinct
cleaned 5-tuple — the output's key list equals the deduplicated list
of cleaned input keys — with each numeric volume the ordinary sum over
the rows of the cleaned-key group (zero as identity, a column absent
from the input counting as `0`) and `Подтверждено_ИД` initialised to
`0`. -/
theorem C7_aggregator (t : Table)
    (hG : ∀ c ∈ structureRequiredCols, t.headers.contains c = true) :
    ∃ T, create_pivot_table t = some T ∧
      T.rows.map key5 = (t.rows.map cleanKey5).dedup ∧
      ∀ r ∈ T.rows, r.get "Подтверждено_ИД" = Cell.num 0 ∧
        r.get "Проектный_объем" = Cell.num (groupSum t (key5 r) "Проектный_объем") ∧
        r.get "Выполнено_в_натуре" = Cell.num (groupSum t (key5 r) "Выполнено_в_натуре") ∧
        r.get "Принято_по_RFI" = Cell.num (groupSum t (key5 r) "Принято_по_RFI") := by
  refine ⟨_, create_pivot_table_eq t hG, ?_, ?_⟩
  · rw [List.map_map]
    conv_rhs => rw [← List.map_id ((t.rows.map cleanKey5).dedup)]
    apply List.map_congr_left
    intro k _
    simp only [Function.comp, id]
    exact key5_mkPivotRow k _ _ _
  · intro r hr
    rcases List.mem_map.mp hr with ⟨k, _, rfl⟩
    rw [key5_mkPivotRow]
    exact ⟨get_mkPivotRow_conf _ _ _ _, get_mkPivotRow_pl _ _ _ _,
      get_mkPivotRow_ex _ _ _ _, get_mkPivotRow_rfi _ _ _ _⟩

theorem C7_aggregator_w :
    ∃ T, create_pivot_table scenDStruct = some T ∧
      T.rows.map key5 = (scenDStruct.rows.map cleanKey5).dedup ∧
      ∀ r ∈ T.rows, r.get "Подтверждено_ИД" = Cell.num 0 ∧
        r.get "Проектный_объем" = Cell.num (groupSum scenDStruct (key5 r) "Проектный_объем") ∧
        r.get "Выполнено_в_натуре" =
          Cell.num (groupSum scenDStruct (key5 r) "Выполнено_в_натуре") ∧
        r.get "Принято_по_RFI" = Cell.num (groupSum scenDStruct (key5 r) "Принято_по_RFI") :=
  C7_aggregator scenDStruct (by decide)

/-- C7 counterexample: the two rows of `trimStruct` have distinct raw
5-tuples (`"a "` versus `"a"` in `Проект`), yet the aggregator
produces a single output row — grouping happens on trimmed keys, not
on the 5-tuples occurring in the input. -/
theorem C7_aggregator_ce :
    (create_pivot_table trimStruct).map (fun T => T.rows.length) = some 1 ∧
    trimStruct.rows.map key5 =
      [("a ", "m", "c", "w", "u"), ("a", "m", "c", "w", "u")] ∧
    (("a ", "m", "c", "w", "u") : String × String × String × String × String) ≠
      ("a", "m", "c", "w", "u") :=
  ⟨rfl, rfl, by decide⟩

/-- C10: when a numeric volume column is absent from the structure
table, the aggregator still succeeds, the aggregated output carries
all three summed volume columns, and every output row holds `0` in the
absent column. -/
theorem C10_missing_numeric (t : Table)
    (hG : ∀ c ∈ structureRequiredCols, t.headers.contains c = true)
    (c : String) (hc : c ∈ structureNumericCols)
    (habs : t.headers.contains c = false) :
    ∃ T, create_pivot_table t = some T ∧
      (∀ nc ∈ structureNumericCols, nc ∈ T.headers) ∧
      ∀ r ∈ T.rows, r.get c = Cell.num 0 := by
  have hgz : ∀ k, groupSum t k c = 0 := by
    intro k
    rw [groupSum]
    apply List.sum_eq_zero
    intro x hx
    rcases List.mem_map.mp hx with ⟨r, _, rfl⟩
    have hmem : c ∉ t.headers := by simpa using habs
    simp [hmem]
  refine ⟨_, create_pivot_table_eq t hG, ?_, ?_⟩
  · intro nc hnc
    fin_cases hnc <;> · simp only [structureRequiredCols, structureNumericCols]; simp
  · intro r hr
    rcases List.mem_map.mp hr with ⟨k, _, rfl⟩
    fin_cases hc
    · rw [get_mkPivotRow_pl, hgz]
    · rw [get_mkPivotRow_ex, hgz]
    · rw [get_mkPivotRow_rfi, hgz]

theorem C10_missing_numeric_w :
    ∃ T, create_pivot_table noNumStruct = some T ∧
      (∀ nc ∈ structureNumericCols, nc ∈ T.headers) ∧
      ∀ r ∈ T.rows, r.get "Проектный_объем" = Cell.num 0 :=
  C10_missing_numeric noNumStruct (by decide) "Проектный_объем" (by decide) (by decide)


/-! ### Classifier lemmas -/

theorem tryRules_nodup_targets (rs : List Rule) (m : List (String × String)) (col : String)
    (h : (m.map Prod.snd).Nodup) : ((tryRules rs m col).map Prod.snd).Nodup := by
  induction rs with
  | nil => exact h
  | cons r rs ih =>
      rw [tryRules]
      split
      · rename_i hcond
        rw [List.map_append, List.nodup_append]
        refine ⟨h, List.nodup_singleton _, ?_⟩
        have hnc : (m.map Prod.snd).contains r.target = false := by
          rcases (Bool.and_eq_true _ _).mp hcond with ⟨h1, _⟩
          simpa using h1
        intro x hx
        simp only [List.map_cons, List.map_nil]
        intro hx2
        rcases List.mem_singleton.mp hx2 with rfl
        exact absurd hx (by simpa using hnc)
      · exact ih

theorem classifyFrom_nodup (rules : List Rule) (cols : List String)
    (m : List (String × String)) (h : (m.map Prod.snd).Nodup) :
    ((cols.foldl (tryRules rules) m).map Prod.snd).Nodup := by
  induction cols generalizing m with
  | nil => exact h
  | cons c cs ih => exact ih _ (tryRules_nodup_targets rules m c h)

theorem classify_nodup (rules : List Rule) (cols : List String) :
    ((classifyCols rules cols).map Prod.snd).Nodup :=
  classifyFrom_nodup rules cols [] List.nodup_nil

theorem tryRules_extends (rs : List Rule) (m : List (String × String)) (col : String) :
    ∃ tl, tryRules rs m col = m ++ tl := by
  induction rs with
  | nil => exact ⟨[], by simp [tryRules]⟩
  | cons r rs ih =>
      rw [tryRules]
      split
      · exact ⟨[(col, r.target)], rfl⟩
      · exact ih

theorem classifyFrom_extends (rules : List Rule) (cols : List String)
    (m : List (String × String)) : ∃ tl, cols.foldl (tryRules rules) m = m ++ tl := by
  induction cols generalizing m with
  | nil => exact ⟨[], by simp⟩
  | cons c cs ih =>
      obtain ⟨t1, h1⟩ := tryRules_extends rules m c
      obtain ⟨t2, h2⟩ := ih (tryRules rules m c)
      exact ⟨t1 ++ t2, by rw [List.foldl_cons, h2, h1, List.append_assoc]⟩

theorem eq_of_mem_nodup_snd {l : List (String × String)} (hnd : (l.map Prod.snd).Nodup)
    {a b t : String} (ha : (a, t) ∈ l) (hb : (b, t) ∈ l) : a = b := by
  induction l with
  | nil => cases ha
  | cons p l ih =>
      rw [List.map_cons, List.nodup_cons] at hnd
      rcases List.mem_cons.mp ha with ha1 | ha2
      · rcases List.mem_cons.mp hb with hb1 | hb2
        · rw [← ha1] at hb1
          exact (Prod.mk.injEq _ _ _ _ ▸ hb1.symm).1
        · exfalso
          apply hnd.1
          have : p.2 = t := by rw [← ha1]
          rw [this]
          exact List.mem_map_of_mem Prod.snd hb2
      · rcases List.mem_cons.mp hb with hb1 | hb2
        · exfalso
          apply hnd.1
          have : p.2 = t := by rw [← hb1]
          rw [this]
          exact List.mem_map_of_mem Prod.snd ha2
        · exact ih hnd.2 ha2 hb2

theorem classify_first_match (rules : List Rule) (pre post : List String) (h tgt : String)
    (hstep : tryRules rules (classifyCols rules pre) h =
      classifyCols rules pre ++ [(h, tgt)]) :
    (h, tgt) ∈ classifyCols rules (pre ++ h :: post) ∧
    ∀ h2, (h2, tgt) ∈ classifyCols rules (pre ++ h :: post) → h2 = h := by
  have hsplit : classifyCols rules (pre ++ h :: post) =
      post.foldl (tryRules rules) (tryRules rules (classifyCols rules pre) h) := by
    rw [classifyCols, List.foldl_append, List.foldl_cons, ← classifyCols]
  obtain ⟨tl, htl⟩ := classifyFrom_extends rules post
    (tryRules rules (classifyCols rules pre) h)
  have hform : classifyCols rules (pre ++ h :: post) =
      classifyCols rules pre ++ [(h, tgt)] ++ tl := by
    rw [hsplit, htl, hstep]
  have hmem : (h, tgt) ∈ classifyCols rules (pre ++ h :: post) := by
    rw [hform]
    exact List.mem_append_left _ (List.mem_append_right _ (List.mem_singleton_self _))
  refine ⟨hmem, ?_⟩
  intro h2 hh2
  exact eq_of_mem_nodup_snd (classify_nodup rules (pre ++ h :: post)) hh2 hmem

/-- C4: for every header list classified under either schema, at most
one raw header is assigned to each canonical field (the mapping's
target list has no duplicates), classifying more headers only extends
the mapping already built (assignments are never overwritten), and the
header on which a field's guarded rule first fires is the one the
final mapping retains for that field, uniquely. -/
theorem C4_first_match_mapping (cols pre post : List String) (h tgt : String) :
    ((classifyCols idRules cols).map Prod.snd).Nodup ∧
    ((classifyCols structureRules cols).map Prod.snd).Nodup ∧
    (∃ tl, classifyCols idRules (pre ++ post) = classifyCols idRules pre ++ tl) ∧
    (∃ tl, classifyCols structureRules (pre ++ post) =
      classifyCols structureRules pre ++ tl) ∧
    (tryRules idRules (classifyCols idRules pre) h =
        classifyCols idRules pre ++ [(h, tgt)] →
      (h, tgt) ∈ classifyCols idRules (pre ++ h :: post) ∧
      ∀ h2, (h2, tgt) ∈ classifyCols idRules (pre ++ h :: post) → h2 = h) ∧
    (tryRules structureRules (classifyCols structureRules pre) h =
        classifyCols structureRules pre ++ [(h, tgt)] →
      (h, tgt) ∈ classifyCols structureRules (pre ++ h :: post) ∧
      ∀ h2, (h2, tgt) ∈ classifyCols structureRules (pre ++ h :: post) → h2 = h) := by
  refine ⟨classify_nodup _ _, classify_nodup _ _, ?_, ?_, ?_, ?_⟩
  · rw [classifyCols, classifyCols, List.foldl_append]
    exact classifyFrom_extends _ _ _
  · rw [classifyCols, classifyCols, List.foldl_append]
    exact classifyFrom_extends _ _ _
  · exact classify_first_match idRules pre post h tgt
  · exact classify_first_match structureRules pre post h tgt

theorem C4_first_match_mapping_w :
    (("Объем по документу Work Scopes", "Объем_по_документу") ∈
        classifyCols idRules
          ["Объем по документу Work Scopes", "объем по документу work scopes 2"] ∧
      ∀ h2, (h2, "Объем_по_документу") ∈
          classifyCols idRules
            ["Объем по документу Work Scopes", "объем по документу work scopes 2"] →
        h2 = "Объем по документу Work Scopes") ∧
    (("Проект (шт)", "Проект") ∈ classifyCols structureRules ["Проект (шт)", "проект 2"] ∧
      ∀ h2, (h2, "Проект") ∈ classifyCols structureRules ["Проект (шт)", "проект 2"] →
        h2 = "Проект (шт)") := by
  constructor
  · exact (C4_first_match_mapping [] [] ["объем по документу work scopes 2"]
      "Объем по документу Work Scopes" "Объем_по_документу").2.2.2.2.1 (by decide)
  · exact (C4_first_match_mapping [] [] ["проект 2"]
      "Проект (шт)" "Проект").2.2.2.2.2 (by decide)


/-! ### Loader failure characterization -/

/-- C5 (amended): each loader returns the null result exactly when the
raw table has no data rows, or falls below its mandatory-field
threshold (documentation: `Шифр_комплекта` or `Объем_по_документу`
missing after mapping, or fewer than two of the four target fields;
structure: fewer than three of the five identifying fields), or hits
that loader's caught in-loader error — for the structure load, a
duplicated canonical label after renaming; for the documentation load,
a surviving data row while `Конструктивный_элемент` or `Вид_работ` is
unassigned — and a null result from either loader aborts the pipeline
with no report. -/
theorem C5_load_failure :
    (∀ df : Table, (load_id_data df = none ↔
      df.rows = [] ∨ idInsufficient df = true ∨ idSampleLogFails df = true)) ∧
    (∀ df : Table, (load_structure_data df = none ↔
      df.rows = [] ∨ structureInsufficient df = true ∨ structureDupLabel df = true)) ∧
    (∀ s i : Table, load_structure_data s = none ∨ load_id_data i = none →
      runPipeline s i = none) := by
  refine ⟨?_, ?_, ?_⟩
  · intro df
    rw [load_id_data]
    by_cases he : df.rows.isEmpty = true
    · rw [if_pos he]
      constructor
      · intro _
        exact Or.inl (List.isEmpty_iff.mp he)
      · intro _
        rfl
    · rw [if_neg he]
      have hne : ¬ df.rows = [] := fun hh => he (by simp [hh])
      dsimp only
      split
      · rename_i hcond
        constructor
        · intro _
          exact Or.inr (Or.inl hcond)
        · intro _
          rfl
      · rename_i hcond
        split
        · rename_i hcond2
          constructor
          · intro _
            exact Or.inr (Or.inr hcond2)
          · intro _
            rfl
        · rename_i hcond2
          constructor
          · intro habs
            exact absurd habs (by simp)
          · intro hor
            rcases hor with hh | hh | hh
            · exact absurd hh hne
            · exact absurd hh hcond
            · exact absurd hh hcond2
  · intro df
    rw [load_structure_data]
    by_cases he : df.rows.isEmpty = true
    · rw [if_pos he]
      constructor
      · intro _
        exact Or.inl (List.isEmpty_iff.mp he)
      · intro _
        rfl
    · rw [if_neg he]
      have hne : ¬ df.rows = [] := fun hh => he (by simp [hh])
      dsimp only
      split
      · rename_i hcond
        constructor
        · intro _
          exact Or.inr (Or.inl (by exact decide_eq_true hcond))
        · intro _
          rfl
      · rename_i hcond
        split
        · rename_i hcond2
          constructor
          · intro _
            exact Or.inr (Or.inr hcond2)
          · intro _
            rfl
        · rename_i hcond2
          constructor
          · intro habs
            exact absurd habs (by simp)
          · intro hor
            rcases hor with hh | hh | hh
            · exact absurd hh hne
            · exact absurd (of_decide_eq_true hh) hcond
            · exact absurd hh hcond2
  · intro s i hor
    rcases hor with hnone | hnone
    · rw [runPipeline, hnone]
    · rw [runPipeline]
      cases hs : load_structure_data s with
      | none => rfl
      | some s2 =>
          rw [hnone]

theorem C5_load_failure_w :
    runPipeline emptyRowsDoc emptyRowsDoc = none ∧
    load_structure_data dupLabelStruct = none ∧
    load_id_data sparseDoc = none := by
  refine ⟨C5_load_failure.2.2 emptyRowsDoc emptyRowsDoc (Or.inl rfl), ?_, ?_⟩
  · exact (C5_load_failure.2.1 dupLabelStruct).mpr (Or.inr (Or.inr (by decide)))
  · exact (C5_load_failure.1 sparseDoc).mpr (Or.inr (Or.inr (by decide)))

/-- C5 counterexample: a documentation table whose headers map all
four target fields but which has no data rows is loaded as the null
result even though the mandatory-field thresholds are met — loading
does not fail exactly below the thresholds. -/
theorem C5_load_failure_ce :
    load_id_data emptyRowsDoc = none ∧ idInsufficient emptyRowsDoc = false ∧
      emptyRowsDoc.rows = [] :=
  ⟨rfl, by decide, rfl⟩


/-! ### Character lemmas for normalization -/

theorem char_toNat_ofNat_valid (n : Nat) (h : n < 55296) : (Char.ofNat n).toNat = n := by
  unfold Char.ofNat
  rw [dif_pos (Or.inl h)]
  simp [Char.toNat, Char.ofNatAux, UInt32.toNat, BitVec.toNat_ofNatLt]

theorem pyLowerChar_idem (c : Char) : pyLowerChar (pyLowerChar c) = pyLowerChar c := by
  by_cases h1 : 0x41 ≤ c.toNat ∧ c.toNat ≤ 0x5a
  · have ht : (Char.ofNat (c.toNat + 32)).toNat = c.toNat + 32 :=
      char_toNat_ofNat_valid _ (by omega)
    have e1 : pyLowerChar c = Char.ofNat (c.toNat + 32) := by rw [pyLowerChar, if_pos h1]
    rw [e1, pyLowerChar, if_neg (by rw [ht]; omega), if_neg (by rw [ht]; omega),
      if_neg (by rw [ht]; omega)]
  · by_cases h2 : 0x410 ≤ c.toNat ∧ c.toNat ≤ 0x42f
    · have ht : (Char.ofNat (c.toNat + 32)).toNat = c.toNat + 32 :=
        char_toNat_ofNat_valid _ (by omega)
      have e1 : pyLowerChar c = Char.ofNat (c.toNat + 32) := by
        rw [pyLowerChar, if_neg h1, if_pos h2]
      rw [e1, pyLowerChar, if_neg (by rw [ht]; omega), if_neg (by rw [ht]; omega),
        if_neg (by rw [ht]; omega)]
    · by_cases h3 : c.toNat = 0x401
      · have ht : (Char.ofNat 0x451).toNat = 0x451 := char_toNat_ofNat_valid _ (by omega)
        have e1 : pyLowerChar c = Char.ofNat 0x451 := by
          rw [pyLowerChar, if_neg h1, if_neg h2, if_pos h3]
        rw [e1, pyLowerChar, if_neg (by rw [ht]; omega), if_neg (by rw [ht]; omega),
          if_neg (by rw [ht]; omega)]
      · have e1 : pyLowerChar c = c := by rw [pyLowerChar, if_neg h1, if_neg h2, if_neg h3]
        rw [e1, e1]

theorem ok_pyLowerChar (c : Char)
    (h : (isWordChar c || isPyWs c) = true) :
    (isWordChar (pyLowerChar c) || isPyWs (pyLowerChar c)) = true := by
  simp only [isWordChar, isPyWs, Bool.or_eq_true, Bool.and_eq_true, decide_eq_true_eq] at h ⊢
  by_cases h1 : 0x41 ≤ c.toNat ∧ c.toNat ≤ 0x5a
  · have ht : (pyLowerChar c).toNat = c.toNat + 32 := by
      rw [pyLowerChar, if_pos h1]
      exact char_toNat_ofNat_valid _ (by omega)
    rw [ht]
    omega
  · by_cases h2 : 0x410 ≤ c.toNat ∧ c.toNat ≤ 0x42f
    · have ht : (pyLowerChar c).toNat = c.toNat + 32 := by
        rw [pyLowerChar, if_neg h1, if_pos h2]
        exact char_toNat_ofNat_valid _ (by omega)
      rw [ht]
      omega
    · by_cases h3 : c.toNat = 0x401
      · have ht : (pyLowerChar c).toNat = 0x451 := by
          rw [pyLowerChar, if_neg h1, if_neg h2, if_pos h3]
          exact char_toNat_ofNat_valid _ (by omega)
        rw [ht]
        omega
      · have e1 : pyLowerChar c = c := by rw [pyLowerChar, if_neg h1, if_neg h2, if_neg h3]
        rw [e1]
        exact h


/-! ### Collapse and strip structure lemmas -/

theorem mem_collapseWsAux {l : List Char} {b : Bool} {c : Char}
    (h : c ∈ collapseWsAux l b) : c ∈ l ∨ c = ' ' := by
  induction l generalizing b with
  | nil => cases h
  | cons a t ih =>
      rw [collapseWsAux] at h
      by_cases hw : isPyWs a = true
      · rw [if_pos hw] at h
        by_cases hb : b = true
        · rw [if_pos hb] at h
          rcases ih h with h2 | h2
          · exact Or.inl (List.mem_cons_of_mem _ h2)
          · exact Or.inr h2
        · rw [if_neg hb] at h
          rcases List.mem_cons.mp h with rfl | h2
          · exact Or.inr rfl
          · rcases ih h2 with h3 | h3
            · exact Or.inl (List.mem_cons_of_mem _ h3)
            · exact Or.inr h3
      · rw [if_neg hw] at h
        rcases List.mem_cons.mp h with rfl | h2
        · exact Or.inl (List.mem_cons_self _ _)
        · rcases ih h2 with h3 | h3
          · exact Or.inl (List.mem_cons_of_mem _ h3)
          · exact Or.inr h3

theorem ws_eq_space_of_mem_collapseWsAux {l : List Char} {b : Bool} {c : Char}
    (h : c ∈ collapseWsAux l b) (hw : isPyWs c = true) : c = ' ' := by
  induction l generalizing b with
  | nil => cases h
  | cons a t ih =>
      rw [collapseWsAux] at h
      by_cases hwa : isPyWs a = true
      · rw [if_pos hwa] at h
        by_cases hb : b = true
        · rw [if_pos hb] at h
          exact ih h
        · rw [if_neg hb] at h
          rcases List.mem_cons.mp h with rfl | h2
          · rfl
          · exact ih h2
      · rw [if_neg hwa] at h
        rcases List.mem_cons.mp h with rfl | h2
        · exact absurd hw (by simp [hwa])
        · exact ih h2

theorem head_collapseWsAux_true {l : List Char} {c : Char}
    (h : (collapseWsAux l true).head? = some c) : isPyWs c = false := by
  induction l with
  | nil => simp [collapseWsAux] at h
  | cons a t ih =>
      rw [collapseWsAux] at h
      by_cases hwa : isPyWs a = true
      · rw [if_pos hwa, if_pos rfl] at h
        exact ih h
      · rw [if_neg hwa] at h
        simp only [List.head?_cons, Option.some.injEq] at h
        rw [← h]
        exact Bool.eq_false_iff.mpr hwa

theorem head_collapseWsAux_false {l : List Char} {c : Char}
    (hl : NoLeadWs l) (h : (collapseWsAux l false).head? = some c) : isPyWs c = false := by
  cases l with
  | nil => simp [collapseWsAux] at h
  | cons a t =>
      have hwa : isPyWs a = false := hl a rfl
      rw [collapseWsAux, if_neg (by simp [hwa])] at h
      simp only [List.head?_cons, Option.some.injEq] at h
      rw [← h]
      exact hwa

theorem chain_collapseWsAux (l : List Char) (b : Bool) :
    List.Chain' (fun a b => isPyWs a = false ∨ isPyWs b = false) (collapseWsAux l b) := by
  induction l generalizing b with
  | nil => simp [collapseWsAux]
  | cons a t ih =>
      rw [collapseWsAux]
      by_cases hwa : isPyWs a = true
      · rw [if_pos hwa]
        by_cases hb : b = true
        · rw [if_pos hb]
          exact ih _
        · rw [if_neg hb]
          rw [List.chain'_cons']
          refine ⟨?_, ih _⟩
          intro y hy
          exact Or.inr (head_collapseWsAux_true hy)
      · rw [if_neg hwa]
        rw [List.chain'_cons']
        refine ⟨?_, ih _⟩
        intro y _
        exact Or.inl (Bool.eq_false_iff.mpr hwa)

theorem getLast_collapseWsAux {l : List Char} {c0 : Char} (b : Bool)
    (hlast : l.getLast? = some c0) (hw : isPyWs c0 = false) :
    collapseWsAux l b ≠ [] ∧ (collapseWsAux l b).getLast? = l.getLast? := by
  induction l generalizing b with
  | nil => simp at hlast
  | cons a t ih =>
      cases t with
      | nil =>
          simp only [List.getLast?_singleton, Option.some.injEq] at hlast
          subst hlast
          rw [collapseWsAux, if_neg (by simp [hw])]
          simp [collapseWsAux]
      | cons a2 t2 =>
          have hlast2 : (a2 :: t2).getLast? = some c0 := by
            rw [List.getLast?_cons_cons] at hlast
            exact hlast
          rw [List.getLast?_cons_cons]
          rw [collapseWsAux]
          by_cases hwa : isPyWs a = true
          · rw [if_pos hwa]
            by_cases hb : b = true
            · rw [if_pos hb]
              exact ih true hlast2
            · rw [if_neg hb]
              obtain ⟨hne, hgl⟩ := ih true hlast2
              refine ⟨by simp, ?_⟩
              cases hX : collapseWsAux (a2 :: t2) true with
              | nil => exact absurd hX hne
              | cons y ys =>
                  rw [List.getLast?_cons_cons, ← hX, hgl]
          · rw [if_neg hwa]
            obtain ⟨hne, hgl⟩ := ih false hlast2
            refine ⟨by simp, ?_⟩
            cases hX : collapseWsAux (a2 :: t2) false with
            | nil => exact absurd hX hne
            | cons y ys =>
                rw [List.getLast?_cons_cons, ← hX, hgl]

theorem mem_pyStrip {l : List Char} {c : Char} (h : c ∈ pyStrip l) : c ∈ l := by
  rw [pyStrip] at h
  rw [List.mem_reverse] at h
  have h2 := (List.dropWhile_sublist isPyWs).mem h
  rw [List.mem_reverse] at h2
  exact (List.dropWhile_sublist isPyWs).mem h2


theorem collapseWsAux_fix (l : List Char)
    (hsp : ∀ c ∈ l, isPyWs c = true → c = ' ')
    (hadj : List.Chain' (fun a b => isPyWs a = false ∨ isPyWs b = false) l) :
    collapseWsAux l false = l ∧
    ((∀ c, l.head? = some c → isPyWs c = false) → collapseWsAux l true = l) := by
  induction l with
  | nil => exact ⟨rfl, fun _ => rfl⟩
  | cons a t ih =>
      have hsp2 : ∀ c ∈ t, isPyWs c = true → c = ' ' :=
        fun c hc => hsp c (List.mem_cons_of_mem _ hc)
      rcases List.chain'_cons'.mp hadj with ⟨hR, hadj2⟩
      obtain ⟨ihf, iht⟩ := ih hsp2 hadj2
      by_cases hwa : isPyWs a = true
      · have ha : a = ' ' := hsp a (List.mem_cons_self _ _) hwa
        have hth : ∀ c, t.head? = some c → isPyWs c = false := by
          intro c hc
          rcases hR c hc with h | h
          · exact absurd hwa (by simp [h])
          · exact h
        constructor
        · rw [collapseWsAux, if_pos hwa, if_neg (by simp)]
          rw [iht hth, ha]
        · intro hhead
          exact absurd (hhead a rfl) (by simp [hwa])
      · constructor
        · rw [collapseWsAux, if_neg hwa, ihf]
        · intro _
          rw [collapseWsAux, if_neg hwa, ihf]

theorem normalizeCore_fix (l : List Char)
    (hok : ∀ c ∈ l, (isWordChar c || isPyWs c) = true)
    (hfix : ∀ c ∈ l, pyLowerChar c = c)
    (hlead : NoLeadWs l) (htrail : NoLeadWs l.reverse)
    (hsp : ∀ c ∈ l, isPyWs c = true → c = ' ')
    (hadj : List.Chain' (fun a b => isPyWs a = false ∨ isPyWs b = false) l) :
    normalizeCore ⟨l⟩ = ⟨l⟩ := by
  rw [normalizeCore]
  have hmap : (pyLower ⟨l⟩).data = l := by
    show l.map pyLowerChar = l
    calc l.map pyLowerChar = l.map id := List.map_congr_left hfix
    _ = l := List.map_id l
  rw [hmap]
  have hstrip : pyStrip l = l := by
    rw [pyStrip, dropWhile_eq_self_of_noLeadWs hlead, dropWhile_eq_self_of_noLeadWs htrail,
      List.reverse_reverse]
  rw [hstrip]
  rw [collapseWs, (collapseWsAux_fix l hsp hadj).1]
  rw [List.filter_eq_self.mpr hok]

theorem normalizeCore_canonical (s : String)
    (h : ∀ c ∈ s.data, (isWordChar c || isPyWs c) = true) :
    normalizeCore (normalizeCore s) = normalizeCore s := by
  have hvok : ∀ c ∈ (pyLower s).data, (isWordChar c || isPyWs c) = true := by
    intro c hc
    rcases List.mem_map.mp hc with ⟨c0, hc0, rfl⟩
    exact ok_pyLowerChar c0 (h c0 hc0)
  have hvfix : ∀ c ∈ (pyLower s).data, pyLowerChar c = c := by
    intro c hc
    rcases List.mem_map.mp hc with ⟨c0, _, rfl⟩
    exact pyLowerChar_idem c0
  have huok : ∀ c ∈ pyStrip (pyLower s).data, (isWordChar c || isPyWs c) = true :=
    fun c hc => hvok c (mem_pyStrip hc)
  have hufix : ∀ c ∈ pyStrip (pyLower s).data, pyLowerChar c = c :=
    fun c hc => hvfix c (mem_pyStrip hc)
  have hulead : NoLeadWs (pyStrip (pyLower s).data) := pyStrip_noLeadWs _
  have hutrail : NoLeadWs (pyStrip (pyLower s).data).reverse := pyStrip_reverse_noLeadWs _
  set u := pyStrip (pyLower s).data with hu
  set w0 := collapseWs u with hw0
  have hw0ok : ∀ c ∈ w0, (isWordChar c || isPyWs c) = true := by
    intro c hc
    rcases mem_collapseWsAux hc with h2 | h2
    · exact huok c h2
    · subst h2
      decide
  have hw0fix : ∀ c ∈ w0, pyLowerChar c = c := by
    intro c hc
    rcases mem_collapseWsAux hc with h2 | h2
    · exact hufix c h2
    · subst h2
      decide
  have hw0sp : ∀ c ∈ w0, isPyWs c = true → c = ' ' :=
    fun _ hc hw => ws_eq_space_of_mem_collapseWsAux hc hw
  have hw0adj : List.Chain' (fun a b => isPyWs a = false ∨ isPyWs b = false) w0 :=
    chain_collapseWsAux u false
  have hw0lead : NoLeadWs w0 := fun c hc => head_collapseWsAux_false hulead hc
  have hw0trail : NoLeadWs w0.reverse := by
    intro c hc
    rw [List.head?_reverse] at hc
    cases hul : u.getLast? with
    | none =>
        have hu0 : u = [] := List.getLast?_eq_none_iff.mp hul
        rw [hw0, hu0] at hc
        simp [collapseWs, collapseWsAux] at hc
    | some c0 =>
        have hc0 : isPyWs c0 = false := by
          apply hutrail
          rw [List.head?_reverse]
          exact hul
        obtain ⟨_, hgl⟩ := getLast_collapseWsAux (l := u) false hul hc0
        rw [hw0, collapseWs] at hc
        rw [hgl, hul] at hc
        injection hc with hcc
        rw [← hcc]
        exact hc0
  have hfilter : w0.filter (fun c => isWordChar c || isPyWs c) = w0 :=
    List.filter_eq_self.mpr hw0ok
  have hstr : normalizeCore s = ⟨w0⟩ := by
    apply String.ext
    rw [normalizeCore]
    exact hfilter
  rw [hstr, normalizeCore_fix w0 hw0ok hw0fix hw0lead hw0trail hw0sp hw0adj]


/-- C9 (amended): text normalization is idempotent on values whose
characters are all word characters or whitespace; in general a second
application can differ from the first, because removing punctuation
may expose leading/trailing or doubled internal whitespace that only
the second pass trims. -/
theorem C9_normalize_idem (s : String)
    (h : ∀ c ∈ s.data, (isWordChar c || isPyWs c) = true) :
    normalize_text (Cell.str (normalize_text (Cell.str s))) = normalize_text (Cell.str s) :=
  normalizeCore_canonical s h

theorem C9_normalize_idem_w :
    normalize_text (Cell.str (normalize_text (Cell.str "  Abc  дЕф 7  "))) =
      normalize_text (Cell.str "  Abc  дЕф 7  ") :=
  C9_normalize_idem "  Abc  дЕф 7  " (by decide)

/-- C9 counterexample: `normalize_text` is not idempotent — on `"a !"`
the first pass yields `"a "` (removing the `!` exposes a trailing
space) and the second pass yields `"a"`. -/
theorem C9_normalize_idem_ce :
    normalize_text (Cell.str (normalize_text (Cell.str "a !"))) ≠
      normalize_text (Cell.str "a !") := by decide

end FoRep
